import Mathlib

/-!
# chez_bot: depth scan, target smoothing and the two behaviour controllers

A shallow embedding of the two nodelets of `turtlebot_follower`:

* `src/fsm.cpp`      (namespace `Fsm`): the four-state controller,
* `src/follower.cpp` (namespace `Follower`): the blended controller.

Numbers: every `float`/`double` quantity of the source is an exact rational
(`ℚ`); rounding of the machine formats is not part of the model.  Depth
samples are `Option ℚ`, where `none` stands for a sample that
`DepthTraits<float>::valid` rejects (not finite).  The C library sine is a
parameter `sinf : ℚ → ℚ` of the definitions that use it.

Effects: every callback returns the list of messages it publishes, in
program order, next to the new member state.
-/

namespace ChezBot

/-! ## Messages -/

/-- A `geometry_msgs::Twist`.  The source only ever writes `linear.x` and
`angular.z`; a fresh message has both equal to zero. -/
structure Twist where
  linearX : ℚ
  angularZ : ℚ
deriving DecidableEq

/-- A freshly constructed message: `new geometry_msgs::Twist()`. -/
def Twist.zero : Twist := ⟨0, 0⟩

/-- What a callback can emit: a velocity command on `cmdpub_`, a sphere
on `markerpub_`, a cuboid on `bboxpub_`, or the `espeak` greeting run through
`system`. -/
inductive Event where
  | cmd (t : Twist)
  | marker (x y z : ℚ)
  | bbox (x y z scale_x scale_y scale_z : ℚ)
  | speak
deriving DecidableEq

/-- The velocity commands among the emitted events, in order. -/
def commands : List Event → List Twist
  | [] => []
  | Event.cmd t :: es => t :: commands es
  | _ :: es => commands es

/-- How many times the greeting ran. -/
def greetings : List Event → Nat
  | [] => 0
  | Event.speak :: es => greetings es + 1
  | _ :: es => greetings es

/-- One entry of `hog_haar_person_detection::Faces`: the centre of the
bounding box and its extent, in pixels. -/
structure Face where
  centerX : ℚ
  centerY : ℚ
  width : ℚ
  height : ℚ
deriving DecidableEq

/-! ## Configuration and depth frames (shared by both nodelets) -/

/-- The search box and the gains (`min_y_` ... `x_scale_`). -/
structure Config where
  min_y_ : ℚ
  max_y_ : ℚ
  min_x_ : ℚ
  max_x_ : ℚ
  max_z_ : ℚ
  goal_z_ : ℚ
  z_scale_ : ℚ
  x_scale_ : ℚ
deriving DecidableEq

/-- The constructor's initialiser list. -/
def Config.default : Config :=
  { min_y_ := 1/10, max_y_ := 1/2, min_x_ := -(1/5), max_x_ := 1/5,
    max_z_ := 4/5, goal_z_ := 3/5, z_scale_ := 1, x_scale_ := 5 }

/-- A `sensor_msgs::Image` seen as the callbacks see it: `width`, `height`,
the buffer `data` read as an array of `float` (index = float offset), and
`row_step = step / sizeof(float)`.  Image dimensions and point counts are
natural numbers: a buffer that fits in memory stays far below the range of
the 32-bit counters of the source. -/
structure DepthFrame where
  width : Nat
  height : Nat
  row_step : Nat
  data : Nat → Option ℚ

/-- The sample the loop reads at column `u` of row `v`: `depth_row[u]` after
`v` increments of `depth_row` by `row_step`. -/
def DepthFrame.sample (f : DepthFrame) (u v : Nat) : Option ℚ :=
  f.data (v * f.row_step + u)

/-- Entry `x` of the column table:
`sin((x - image_width/2.0) * x_radians_per_pixel)` with
`x_radians_per_pixel = 60.0/57.0/image_width`. -/
def sin_pixel_x (sinf : ℚ → ℚ) (image_width : Nat) (x : Nat) : ℚ :=
  sinf (((x : ℚ) - (image_width : ℚ) / 2) * (60 / 57 / (image_width : ℚ)))

/-- Entry `y` of the row table:
`sin((image_height/2.0 - y) * y_radians_per_pixel)` with
`y_radians_per_pixel = 45.0/57.0/image_width` (the source divides by the
width here as well). -/
def sin_pixel_y (sinf : ℚ → ℚ) (image_width image_height : Nat) (y : Nat) : ℚ :=
  sinf (((image_height : ℚ) / 2 - (y : ℚ)) * (45 / 57 / (image_width : ℚ)))

/-- The loop variables `x`, `y`, `z`, `n` of the pixel scan. -/
structure Scan where
  x : ℚ
  y : ℚ
  z : ℚ
  n : Nat
deriving DecidableEq

/-- Their initial values: `x = 0.0`, `y = 0.0`, `z = 1e6`, `n = 0`. -/
def Scan.init : Scan := ⟨0, 0, 1000000, 0⟩

/-- The body of the inner loop for one sample, given the two table entries
`sy = sin_pixel_y[v]` and `sx = sin_pixel_x[u]`. -/
def pixelStep (cfg : Config) (sy sx : ℚ) (smp : Option ℚ) (a : Scan) : Scan :=
  match smp with
  | none => a
  | some depth =>
    if depth > cfg.max_z_ then a
    else
      let y_val := sy * depth
      let x_val := sx * depth
      if y_val > cfg.min_y_ ∧ y_val < cfg.max_y_ ∧
         x_val > cfg.min_x_ ∧ x_val < cfg.max_x_ then
        { x := a.x + x_val, y := a.y + y_val, z := min a.z depth, n := a.n + 1 }
      else a

/-- One row `v` of the image: the inner `for` over `u`. -/
def scanRow (sinf : ℚ → ℚ) (cfg : Config) (f : DepthFrame) (v : Nat) (a : Scan) : Scan :=
  (List.range f.width).foldl
    (fun acc u =>
      pixelStep cfg (sin_pixel_y sinf f.width f.height v) (sin_pixel_x sinf f.width u)
        (f.sample u v) acc)
    a

/-- The pixel scan both `imagecb` and `updateObstacle` start with: the
outer `for` over `v`, from the initial loop variables. -/
def scan (sinf : ℚ → ℚ) (cfg : Config) (f : DepthFrame) : Scan :=
  (List.range f.height).foldl (fun acc v => scanRow sinf cfg f v acc) Scan.init

/-! ### The loop of the source in closed form

The definitions of this section restate what the loop body of the source
tests and adds, pixel by pixel, with the tables of the source
(`sin_pixel_x`, `sin_pixel_y`).  The filter and the projection in the words
of the specification, which use the specification's own row table, are
`specInSearchBox`, `specX` and `specY` further down. -/

/-- The loop body of the source accepts pixel `p = (u, v)`: the sample is
valid, `depth > max_z_` fails, and `x_val = sin_pixel_x[u] * depth`,
`y_val = sin_pixel_y[v] * depth`, computed with the tables of the source, pass
the four strict comparisons of the `if`. -/
def inSearchBox (sinf : ℚ → ℚ) (cfg : Config) (f : DepthFrame) (p : ℕ × ℕ) : Bool :=
  match f.sample p.1 p.2 with
  | none => false
  | some d =>
    decide (d ≤ cfg.max_z_ ∧
      cfg.min_x_ < sin_pixel_x sinf f.width p.1 * d ∧
      sin_pixel_x sinf f.width p.1 * d < cfg.max_x_ ∧
      cfg.min_y_ < sin_pixel_y sinf f.width f.height p.2 * d ∧
      sin_pixel_y sinf f.width f.height p.2 * d < cfg.max_y_)

/-- The depth of pixel `p` (0 for an invalid sample, which is never
accepted). -/
def depthAt (f : DepthFrame) (p : ℕ × ℕ) : ℚ := (f.sample p.1 p.2).getD 0

/-- The `x_val` the loop body of the source computes at pixel `p`:
`sin_pixel_x[u] * depth`. -/
def xAt (sinf : ℚ → ℚ) (f : DepthFrame) (p : ℕ × ℕ) : ℚ :=
  sin_pixel_x sinf f.width p.1 * depthAt f p

/-- The `y_val` the loop body of the source computes at pixel `p`:
`sin_pixel_y[v] * depth`, with the row table of the source. -/
def yAt (sinf : ℚ → ℚ) (f : DepthFrame) (p : ℕ × ℕ) : ℚ :=
  sin_pixel_y sinf f.width f.height p.2 * depthAt f p

/-- All pixels `(u, v)` of the frame. -/
def pixels (f : DepthFrame) : Finset (ℕ × ℕ) :=
  Finset.range f.width ×ˢ Finset.range f.height

/-- The pixels of the frame that the loop body of the source accepts. -/
def acceptedPixels (sinf : ℚ → ℚ) (cfg : Config) (f : DepthFrame) : Finset (ℕ × ℕ) :=
  (pixels f).filter (fun p => inSearchBox sinf cfg f p = true)

/-- The loop body at pixel `p = (u, v)`. -/
def stepAt (sinf : ℚ → ℚ) (cfg : Config) (f : DepthFrame) (a : Scan) (p : ℕ × ℕ) : Scan :=
  pixelStep cfg (sin_pixel_y sinf f.width f.height p.2) (sin_pixel_x sinf f.width p.1)
    (f.sample p.1 p.2) a

/-- The pixels in the order the two nested loops visit them. -/
def scanOrder (f : DepthFrame) : List (ℕ × ℕ) :=
  (List.range f.height).flatMap (fun v => (List.range f.width).map (fun u => (u, v)))

/-- A third-order polynomial for the sine, used to run the scan on concrete
frames (it is exact at 0 and within 0.001 of the sine for angles up to 0.6
rad, the range the concrete frames below use). -/
def sinCubic (a : ℚ) : ℚ := a - a ^ 3 / 6

/-! ## The state-machine nodelet (`fsm.cpp`) -/

namespace Fsm

/-- The members of `TurtlebotFollower` in `fsm.cpp`.  `obstacle_detected`,
`is_close_to_human` and `has_candies` are declared `float`; assigning `true`
stores 1 and `false` stores 0, and `== true` / `== false` compare with 1 and
0. -/
structure State where
  cfg : Config
  enabled_ : Bool
  face_found : Bool
  x_face : ℚ
  y_face : ℚ
  STATE : Int
  obstacle_detected : ℚ
  is_close_to_human : ℚ
  has_candies : ℚ
deriving DecidableEq

/-- The value a `float` member holds after being assigned a `bool`. -/
def ofBool (b : Bool) : ℚ := if b then 1 else 0

/-- `searchMode`: publish a fresh message with `linear.x = 0.3`. -/
def searchMode (_s : State) : List Event := [Event.cmd ⟨3/10, 0⟩]

/-- `engageWithHuman`: run the greeting. -/
def engageWithHuman (_s : State) : List Event := [Event.speak]

/-- `avoidObstacle`: publish a fresh message with `linear.x = -1.0`. -/
def avoidObstacle (_s : State) : List Event := [Event.cmd ⟨-1, 0⟩]

/-- `moveToHuman`: `linear.x = 0.2`, `angular.z = -x_face * z_scale_`. -/
def moveToHuman (s : State) : List Event :=
  [Event.cmd ⟨1/5, -s.x_face * s.cfg.z_scale_⟩]

/-- `updateState`: the if/else-if chain that stores `STATE` and runs the
action of the chosen state. -/
def updateState (s : State) : State × List Event :=
  if s.face_found = false ∧ s.obstacle_detected = 0 ∧ s.is_close_to_human = 0 then
    ({ s with STATE := 0 }, searchMode s)
  else if s.obstacle_detected = 1 ∧ s.is_close_to_human = 0 then
    ({ s with STATE := 1 }, avoidObstacle s)
  else if s.face_found = true ∧ s.obstacle_detected = 0 ∧ s.is_close_to_human = 0 then
    ({ s with STATE := 2 }, moveToHuman s)
  else if s.face_found = true ∧ s.is_close_to_human = 1 then
    ({ s with STATE := 3 }, engageWithHuman s)
  else
    ({ s with STATE := 0 }, searchMode s)

/-- `personDetectionCallBack`: smooth towards the first face, set the
flags, then recompute the state. -/
def personDetectionCallBack (s : State) (faces : List Face) : State × List Event :=
  match faces with
  | face0 :: _ =>
    let s1 := { s with y_face := ((face0.centerY - 320) / 640 + s.y_face) / 2 }
    let s2 := { s1 with x_face := ((face0.centerX - 320) / 640 + s1.x_face) / 2 }
    let s3 := { s2 with face_found := true }
    let s4 := { s3 with is_close_to_human := if face0.width > 100 then 1 else 0 }
    updateState s4
  | [] =>
    updateState { s with face_found := false, is_close_to_human := 0 }

/-- The end of `updateObstacle`, after the pixel loop:
`if (n > 4000) obstacle_detected = true; else obstacle_detected = false;`,
`n` being the point count the scan ended with. -/
def updateObstacle_threshold (s : State) (n : Nat) : State :=
  if n > 4000 then { s with obstacle_detected := 1 }
  else { s with obstacle_detected := 0 }

/-- `updateObstacle`: scan the frame and threshold the point count.  It
publishes nothing and does not call `updateState`. -/
def updateObstacle (sinf : ℚ → ℚ) (s : State) (f : DepthFrame) : State × List Event :=
  (updateObstacle_threshold s (scan sinf s.cfg f).n, [])

/-- The state in the table of the specification, as a number:
SEARCH 0, AVOID 1, APPROACH 2, ENGAGE 3. -/
def tableState (faceFound obstacleDetected closeToHuman : Bool) : Int :=
  match faceFound, obstacleDetected, closeToHuman with
  | false, false, false => 0
  | _, true, false => 1
  | true, false, false => 2
  | true, _, true => 3
  | _, _, _ => 0

/-- The per-evaluation greeting counts of a run of `updateState`
evaluations, `ss` being the member state each evaluation starts from. -/
def greetingsPerTick (ss : List State) : List Nat :=
  ss.map (fun s => greetings (updateState s).2)

/-- A run of face messages delivered one after the other: the state after
the last one and everything published on the way. -/
def runFaces (s : State) : List (List Face) → State × List Event
  | [] => (s, [])
  | m :: ms =>
    let r := personDetectionCallBack s m
    let r2 := runFaces r.1 ms
    (r2.1, r.2 ++ r2.2)

end Fsm

/-! ## The blended nodelet (`follower.cpp`) -/

namespace Follower

/-- The members of `TurtlebotFollower` in `follower.cpp`. -/
structure State where
  cfg : Config
  enabled_ : Bool
  color_found : Bool
  face_found : Bool
  x_face : ℚ
  y_face : ℚ
  x_yellow : ℚ
  y_yellow : ℚ
deriving DecidableEq

/-- `publishMarker(x, y, z)`: one sphere at that position. -/
def publishMarker (x y z : ℚ) : List Event := [Event.marker x y z]

/-- `publishBbox`: the cuboid of the search box. -/
def publishBbox (s : State) : List Event :=
  let x := (s.cfg.min_x_ + s.cfg.max_x_) / 2
  let y := (s.cfg.min_y_ + s.cfg.max_y_) / 2
  let z := (0 + s.cfg.max_z_) / 2
  let scale_x := (s.cfg.max_x_ - x) * 2
  let scale_y := (s.cfg.max_y_ - y) * 2
  let scale_z := (s.cfg.max_z_ - z) * 2
  [Event.bbox x (-y) z scale_x scale_y scale_z]

/-- The part of `imagecb` after the pixel loop (from
`if (n < 4000 and color_found)` to `publishBbox()`), `r` being the loop
variables the scan ended with. -/
def imagecb_control (s : State) (r : Scan) : List Event :=
  (if r.n < 4000 ∧ s.color_found = true then
      let x := s.x_yellow
      let y := s.y_yellow
      publishMarker x y r.z ++
        (if s.enabled_ = true then [Event.cmd ⟨1/20, -x * s.cfg.z_scale_⟩] else [])
    else if r.n > 4000 then
      [Event.cmd ⟨-(5/2), 0⟩]
    else if s.color_found = false then
      []
    else
      publishMarker r.x r.y r.z ++
        (if s.enabled_ = true then [Event.cmd Twist.zero] else []))
  ++ publishBbox s

/-- `imagecb`: the pixel scan followed by the branch on its result.  No
member is written. -/
def imagecb (sinf : ℚ → ℚ) (s : State) (f : DepthFrame) : State × List Event :=
  (s, imagecb_control s (scan sinf s.cfg f))

/-- `personDetectionCallBack` of the blended nodelet: the raw centre goes
to `x_face`/`y_face`, the smoothed one to `x_yellow`/`y_yellow`. -/
def personDetectionCallBack (s : State) (faces : List Face) : State × List Event :=
  match faces with
  | face0 :: _ =>
    let s1 := { s with x_face := face0.centerX }
    let s2 := { s1 with y_face := face0.centerY }
    let s3 := { s2 with y_yellow := ((face0.centerY - 320) / 640 + s2.y_yellow) / 2 }
    let s4 := { s3 with x_yellow := ((face0.centerX - 320) / 640 + s3.x_yellow) / 2 }
    ({ s4 with face_found := true, color_found := true }, [])
  | [] =>
    ({ s with face_found := false, color_found := false }, [])

/-- The table of the BlendedController in the specification, its rows read
in order, for point count `n`, target flag, smoothed `x_norm` and `z_scale`
(threshold 4000, controller enabled). -/
def blendedTable (n : Nat) (target : Bool) (x_norm z_scale : ℚ) : List Twist :=
  if n < 4000 ∧ target = true then [⟨1/20, -x_norm * z_scale⟩]
  else if n > 4000 then [⟨-(5/2), 0⟩]
  else if n < 4000 ∧ target = false then []
  else [⟨0, 0⟩]

end Follower

/-- A member state of the state-machine nodelet used in concrete runs:
default box, `enabled_` false, no face, no obstacle. -/
def fsmIdle : Fsm.State :=
  { cfg := Config.default, enabled_ := false, face_found := false, x_face := 0,
    y_face := 0, STATE := 0, obstacle_detected := 0, is_close_to_human := 0,
    has_candies := 0 }

/-- A member state of the blended nodelet used in concrete runs: default
box, `enabled_` true, target at `x_yellow = 1/4`. -/
def followerOn : Follower.State :=
  { cfg := Config.default, enabled_ := true, color_found := true, face_found := true,
    x_face := 480, y_face := 320, x_yellow := 1/4, y_yellow := 0 }

/-- A 2 x 2 frame whose only valid sample is the pixel (1, 1) at depth
2e6. -/
def frameFarther : DepthFrame :=
  { width := 2, height := 2, row_step := 2,
    data := fun i => if i = 3 then some 2000000 else none }

/-- The default configuration with `max_z = 3e6` and `min_y = -0.1`. -/
def cfgFarther : Config := { Config.default with max_z_ := 3000000, min_y_ := -(1/10) }

/-- A 2 x 2 frame whose only valid sample is the pixel (u, v) = (1, 0), at
depth 0.5. -/
def frameOne : DepthFrame :=
  { width := 2, height := 2, row_step := 2,
    data := fun i => if i = 1 then some (1/2) else none }

/-- A 2 x 2 frame with depth 0.3 on the whole top row and no valid sample
on the bottom row. -/
def frameTwo : DepthFrame :=
  { width := 2, height := 2, row_step := 2,
    data := fun i => if i < 2 then some (3/10) else none }

/-! ## Further operations and specification-side definitions -/

/-- The angle whose sine `sin_pixel_y[y]` stores:
`(image_height/2.0 - y) * y_radians_per_pixel`, with
`y_radians_per_pixel = 45.0/57.0/image_width`. -/
def row_angle (image_width image_height : Nat) (y : Nat) : ℚ :=
  ((image_height : ℚ) / 2 - (y : ℚ)) * (45 / 57 / (image_width : ℚ))

/-- The row bearing in the words of the specification: the vertical field
of view 45/57 rad spread over the image height, sign inverted. -/
def specRowAngle (height : Nat) (v : Nat) : ℚ :=
  ((height : ℚ) / 2 - (v : ℚ)) * (45 / 57) / (height : ℚ)

/-- The column bearing in the words of the specification:
`angle(u) = (u - width/2) * (60/57) / width`. -/
def specColAngle (width : Nat) (u : Nat) : ℚ :=
  ((u : ℚ) - (width : ℚ) / 2) * (60 / 57) / (width : ℚ)

/-- The projected x of pixel `p = (u, v)` in the words of the
specification: `sin(colAngle[u]) * depth`. -/
def specX (sinf : ℚ → ℚ) (f : DepthFrame) (p : ℕ × ℕ) : ℚ :=
  sinf (specColAngle f.width p.1) * depthAt f p

/-- The projected y of pixel `p = (u, v)` in the words of the
specification: `sin(rowAngle[v]) * depth`, `rowAngle` being the row table of
the specification (vertical field of view over the image height). -/
def specY (sinf : ℚ → ℚ) (f : DepthFrame) (p : ℕ × ℕ) : ℚ :=
  sinf (specRowAngle f.height p.2) * depthAt f p

/-- Pixel `p = (u, v)` passes the filters of the specification: its sample
is valid, its depth is at most `max_z`, and the projection
`x = sin(colAngle[u]) * depth`, `y = sin(rowAngle[v]) * depth`, taken with the
bearing tables of the specification, lies strictly inside the search box. -/
def specInSearchBox (sinf : ℚ → ℚ) (cfg : Config) (f : DepthFrame) (p : ℕ × ℕ) : Bool :=
  match f.sample p.1 p.2 with
  | none => false
  | some d =>
    decide (d ≤ cfg.max_z_ ∧
      cfg.min_x_ < sinf (specColAngle f.width p.1) * d ∧
      sinf (specColAngle f.width p.1) * d < cfg.max_x_ ∧
      cfg.min_y_ < sinf (specRowAngle f.height p.2) * d ∧
      sinf (specRowAngle f.height p.2) * d < cfg.max_y_)

/-- The pixels of the frame that pass the filters of the specification. -/
def specAcceptedPixels (sinf : ℚ → ℚ) (cfg : Config) (f : DepthFrame) : Finset (ℕ × ℕ) :=
  (pixels f).filter (fun p => specInSearchBox sinf cfg f p = true)

/-- A 320 x 240 frame whose only valid sample is the pixel
(u, v) = (160, 50), at depth 0.5. -/
@[irreducible]
def frameQVGA : DepthFrame :=
  { width := 320, height := 240, row_step := 320,
    data := fun i => if i = 16160 then some (1/2) else none }

/-- The members of the state-machine nodelet at the moment
`personDetectionCallBack` calls `updateState`: everything the callback does
before that call. -/
def Fsm.personDetectionCallBack_flags (s : Fsm.State) (faces : List Face) : Fsm.State :=
  match faces with
  | face0 :: _ =>
    let s1 := { s with y_face := ((face0.centerY - 320) / 640 + s.y_face) / 2 }
    let s2 := { s1 with x_face := ((face0.centerX - 320) / 640 + s1.x_face) / 2 }
    let s3 := { s2 with face_found := true }
    { s3 with is_close_to_human := if face0.width > 100 then 1 else 0 }
  | [] =>
    { s with face_found := false, is_close_to_human := 0 }

/-- Which arm of the if/else-if chain of `updateState` runs: 1 to 4 for the
four guarded arms in source order, 5 for the final `else`. -/
def Fsm.updateState_branch (s : Fsm.State) : Nat :=
  if s.face_found = false ∧ s.obstacle_detected = 0 ∧ s.is_close_to_human = 0 then 1
  else if s.obstacle_detected = 1 ∧ s.is_close_to_human = 0 then 2
  else if s.face_found = true ∧ s.obstacle_detected = 0 ∧ s.is_close_to_human = 0 then 3
  else if s.face_found = true ∧ s.is_close_to_human = 1 then 4
  else 5

/-- The action of a state in the words of the specification, as the list
of velocity commands it emits: SEARCH (0) forward 0.3, AVOID (1) reverse -1.0,
APPROACH (2) forward 0.2 with heading correction, ENGAGE (3) none. -/
def Fsm.stateAction (state : Int) (x_face z_scale : ℚ) : List Twist :=
  if state = 0 then [⟨3/10, 0⟩]
  else if state = 1 then [⟨-1, 0⟩]
  else if state = 2 then [⟨1/5, -x_face * z_scale⟩]
  else []

/-- The smoothed face position of the state-machine nodelet lies in
[-0.5, 0.5] on both axes. -/
def Fsm.inRange (s : Fsm.State) : Prop :=
  -(1/2) ≤ s.x_face ∧ s.x_face ≤ 1/2 ∧ -(1/2) ≤ s.y_face ∧ s.y_face ≤ 1/2

/-- The smoothed target of the blended nodelet lies in [-0.5, 0.5] on both
axes. -/
def Follower.inRange (s : Follower.State) : Prop :=
  -(1/2) ≤ s.x_yellow ∧ s.x_yellow ≤ 1/2 ∧ -(1/2) ≤ s.y_yellow ∧ s.y_yellow ≤ 1/2

/-- The first face of a message, if there is one, has its pixel centre
inside the 640 x 640 frame the normalization assumes. -/
def centreInFrame (m : List Face) : Prop :=
  match m with
  | [] => True
  | face0 :: _ =>
    0 ≤ face0.centerX ∧ face0.centerX ≤ 640 ∧ 0 ≤ face0.centerY ∧ face0.centerY ≤ 640

/-- A run of face messages delivered to the blended nodelet one after the
other. -/
def Follower.runFaces (s : Follower.State) : List (List Face) → Follower.State × List Event
  | [] => (s, [])
  | m :: ms =>
    let r := Follower.personDetectionCallBack s m
    let r2 := Follower.runFaces r.1 ms
    (r2.1, r.2 ++ r2.2)

/-- The request constant `STOPPED` of `turtlebot_msgs::SetFollowState` (a
`uint8`, declared in the message package, outside this repository). -/
def STOPPED : Nat := 0

/-- The request constant `FOLLOW` of `turtlebot_msgs::SetFollowState`. -/
def FOLLOW : Nat := 1

/-- The response constant `OK` of `turtlebot_msgs::SetFollowState`. -/
def OK : Nat := 0

/-- What one call of the `change_state` service leaves behind: the members,
the messages published, `response.result` and the returned `bool`. -/
structure SrvOutcome where
  state : Follower.State
  events : List Event
  result : Nat
  returned : Bool

/-- `changeModeSrvCb`, `request_state` being `request.state`. -/
def Follower.changeModeSrvCb (s : Follower.State) (request_state : Nat) : SrvOutcome :=
  if s.enabled_ = true ∧ request_state = STOPPED then
    { state := { s with enabled_ := false }, events := [Event.cmd Twist.zero],
      result := OK, returned := true }
  else if s.enabled_ = false ∧ request_state = FOLLOW then
    { state := { s with enabled_ := true }, events := [], result := OK, returned := true }
  else
    { state := s, events := [], result := OK, returned := true }

/-- A face at pixel centre (480, 320), 150 px wide. -/
def faceNear : Face := { centerX := 480, centerY := 320, width := 150, height := 150 }

end ChezBot

namespace ChezBot

/-! ## Lemmas on the pixel scan -/

theorem scan_eq_foldl (sinf : ℚ → ℚ) (cfg : Config) (f : DepthFrame) :
    scan sinf cfg f = (scanOrder f).foldl (stepAt sinf cfg f) Scan.init := by
  unfold scan scanOrder scanRow
  rw [List.flatMap, List.foldl_flatten, List.foldl_map]
  congr 1
  funext acc v
  rw [List.foldl_map]
  rfl

theorem stepAt_eq (sinf : ℚ → ℚ) (cfg : Config) (f : DepthFrame) (a : Scan) (p : ℕ × ℕ) :
    stepAt sinf cfg f a p =
      if inSearchBox sinf cfg f p = true then
        { x := a.x + xAt sinf f p, y := a.y + yAt sinf f p,
          z := min a.z (depthAt f p), n := a.n + 1 }
      else a := by
  unfold stepAt pixelStep inSearchBox xAt yAt depthAt
  cases hs : f.sample p.1 p.2 with
  | none => simp
  | some d =>
    by_cases h1 : d > cfg.max_z_
    · have h2 : ¬ d ≤ cfg.max_z_ := not_le.mpr h1
      simp [h1, h2]
    · have h2 : d ≤ cfg.max_z_ := not_lt.mp h1
      simp only [h1, h2, if_false, true_and, Option.getD_some, decide_eq_true_eq, gt_iff_lt]
      by_cases h3 : cfg.min_y_ < sin_pixel_y sinf f.width f.height p.2 * d ∧
          sin_pixel_y sinf f.width f.height p.2 * d < cfg.max_y_ ∧
          cfg.min_x_ < sin_pixel_x sinf f.width p.1 * d ∧
          sin_pixel_x sinf f.width p.1 * d < cfg.max_x_
      · have h4 : cfg.min_x_ < sin_pixel_x sinf f.width p.1 * d ∧
            sin_pixel_x sinf f.width p.1 * d < cfg.max_x_ ∧
            cfg.min_y_ < sin_pixel_y sinf f.width f.height p.2 * d ∧
            sin_pixel_y sinf f.width f.height p.2 * d < cfg.max_y_ :=
          ⟨h3.2.2.1, h3.2.2.2, h3.1, h3.2.1⟩
        rw [if_pos h3, if_pos h4]
      · have h4 : ¬ (cfg.min_x_ < sin_pixel_x sinf f.width p.1 * d ∧
            sin_pixel_x sinf f.width p.1 * d < cfg.max_x_ ∧
            cfg.min_y_ < sin_pixel_y sinf f.width f.height p.2 * d ∧
            sin_pixel_y sinf f.width f.height p.2 * d < cfg.max_y_) :=
          fun h => h3 ⟨h.2.2.1, h.2.2.2, h.1, h.2.1⟩
        rw [if_neg h3, if_neg h4]

theorem mem_scanOrder (f : DepthFrame) (p : ℕ × ℕ) :
    p ∈ scanOrder f ↔ p.1 < f.width ∧ p.2 < f.height := by
  unfold scanOrder
  simp only [List.mem_flatMap, List.mem_map, List.mem_range]
  constructor
  · rintro ⟨v, hv, u, hu, rfl⟩
    exact ⟨hu, hv⟩
  · rintro ⟨hu, hv⟩
    exact ⟨p.2, hv, p.1, hu, rfl⟩

theorem nodup_scanOrder (f : DepthFrame) : (scanOrder f).Nodup := by
  unfold scanOrder
  rw [List.nodup_flatMap]
  constructor
  · intro v _
    refine List.Nodup.map ?_ (List.nodup_range _)
    intro a b h
    exact congrArg Prod.fst h
  · refine List.Pairwise.imp ?_ (List.nodup_range f.height)
    intro a b hab
    simp only [Function.onFun]
    intro q hq1 hq2
    rcases List.mem_map.mp hq1 with ⟨u1, _, rfl⟩
    rcases List.mem_map.mp hq2 with ⟨u2, _, h2⟩
    exact hab (congrArg Prod.snd h2).symm

theorem toFinset_scanOrder (f : DepthFrame) : (scanOrder f).toFinset = pixels f := by
  ext p
  rw [List.mem_toFinset, mem_scanOrder]
  simp [pixels]

theorem acceptedPixels_eq (sinf : ℚ → ℚ) (cfg : Config) (f : DepthFrame) :
    acceptedPixels sinf cfg f = ((scanOrder f).filter (inSearchBox sinf cfg f)).toFinset := by
  rw [List.toFinset_filter, toFinset_scanOrder]
  rfl

theorem mem_acceptedPixels (sinf : ℚ → ℚ) (cfg : Config) (f : DepthFrame) (p : ℕ × ℕ) :
    p ∈ acceptedPixels sinf cfg f ↔
      (p.1 < f.width ∧ p.2 < f.height) ∧ inSearchBox sinf cfg f p = true := by
  simp [acceptedPixels, pixels]

/-- The loop variables after folding the loop body over a list of pixels. -/
theorem foldl_stepAt (sinf : ℚ → ℚ) (cfg : Config) (f : DepthFrame) (l : List (ℕ × ℕ)) :
    ∀ a : Scan,
      (l.foldl (stepAt sinf cfg f) a).n = a.n + (l.filter (inSearchBox sinf cfg f)).length ∧
      (l.foldl (stepAt sinf cfg f) a).x
        = a.x + ((l.filter (inSearchBox sinf cfg f)).map (xAt sinf f)).sum ∧
      (l.foldl (stepAt sinf cfg f) a).y
        = a.y + ((l.filter (inSearchBox sinf cfg f)).map (yAt sinf f)).sum ∧
      (l.foldl (stepAt sinf cfg f) a).z ≤ a.z ∧
      (∀ p ∈ l, inSearchBox sinf cfg f p = true →
        (l.foldl (stepAt sinf cfg f) a).z ≤ depthAt f p) ∧
      ((l.foldl (stepAt sinf cfg f) a).z = a.z ∨
        ∃ p ∈ l, inSearchBox sinf cfg f p = true ∧
          depthAt f p = (l.foldl (stepAt sinf cfg f) a).z) := by
  induction l with
  | nil =>
    intro a
    simp
  | cons q l ih =>
    intro a
    rw [List.foldl_cons]
    obtain ⟨hn, hx, hy, hz1, hz2, hz3⟩ := ih (stepAt sinf cfg f a q)
    by_cases hq : inSearchBox sinf cfg f q = true
    · have hs : stepAt sinf cfg f a q =
          { x := a.x + xAt sinf f q, y := a.y + yAt sinf f q,
            z := min a.z (depthAt f q), n := a.n + 1 } := by
        rw [stepAt_eq, if_pos hq]
      rw [hs] at hn hx hy hz1 hz2 hz3 ⊢
      simp only [List.filter_cons, hq, if_true, List.length_cons, List.map_cons,
        List.sum_cons]
      refine ⟨by rw [hn]; show a.n + 1 + _ = _; omega, by rw [hx]; show a.x + _ + _ = _; ring,
        by rw [hy]; show a.y + _ + _ = _; ring,
        le_trans hz1 (min_le_left _ _), ?_, ?_⟩
      · intro p hp hpa
        rcases List.mem_cons.mp hp with rfl | hp
        · exact le_trans hz1 (min_le_right _ _)
        · exact hz2 p hp hpa
      · rcases hz3 with h | ⟨p, hp, hpa, hpd⟩
        · rcases min_choice a.z (depthAt f q) with hm | hm
          · left; rw [h]; exact hm
          · right
            exact ⟨q, List.mem_cons_self _ _, hq, by rw [h]; exact hm.symm⟩
        · right
          exact ⟨p, List.mem_cons_of_mem _ hp, hpa, hpd⟩
    · have hs : stepAt sinf cfg f a q = a := by
        rw [stepAt_eq, if_neg hq]
      rw [hs] at hn hx hy hz1 hz2 hz3 ⊢
      simp only [List.filter_cons, hq, if_false]
      refine ⟨hn, hx, hy, hz1, ?_, ?_⟩
      · intro p hp hpa
        rcases List.mem_cons.mp hp with rfl | hp
        · exact absurd hpa hq
        · exact hz2 p hp hpa
      · rcases hz3 with h | ⟨p, hp, hpa, hpd⟩
        · left; exact h
        · right
          exact ⟨p, List.mem_cons_of_mem _ hp, hpa, hpd⟩

/-- The scan result in terms of the accepted pixels. -/
theorem scan_spec (sinf : ℚ → ℚ) (cfg : Config) (f : DepthFrame) :
    (scan sinf cfg f).n = (acceptedPixels sinf cfg f).card ∧
    (scan sinf cfg f).x = (acceptedPixels sinf cfg f).sum (xAt sinf f) ∧
    (scan sinf cfg f).y = (acceptedPixels sinf cfg f).sum (yAt sinf f) ∧
    (scan sinf cfg f).z ≤ 1000000 ∧
    (∀ p ∈ acceptedPixels sinf cfg f, (scan sinf cfg f).z ≤ depthAt f p) ∧
    ((scan sinf cfg f).z = 1000000 ∨
      ∃ p ∈ acceptedPixels sinf cfg f, depthAt f p = (scan sinf cfg f).z) := by
  have hnd : ((scanOrder f).filter (inSearchBox sinf cfg f)).Nodup :=
    List.Nodup.filter _ (nodup_scanOrder f)
  obtain ⟨hn, hx, hy, hz1, hz2, hz3⟩ := foldl_stepAt sinf cfg f (scanOrder f) Scan.init
  rw [← scan_eq_foldl] at hn hx hy hz1 hz2 hz3
  rw [acceptedPixels_eq]
  refine ⟨?_, ?_, ?_, hz1, ?_, ?_⟩
  · rw [hn, List.toFinset_card_of_nodup hnd]; simp [Scan.init]
  · rw [hx, List.sum_toFinset _ hnd]; simp [Scan.init]
  · rw [hy, List.sum_toFinset _ hnd]; simp [Scan.init]
  · intro p hp
    rw [List.mem_toFinset, List.mem_filter] at hp
    exact hz2 p hp.1 hp.2
  · rcases hz3 with h | ⟨p, hp, hpa, hpd⟩
    · left; exact h
    · right
      exact ⟨p, by rw [List.mem_toFinset, List.mem_filter]; exact ⟨hp, hpa⟩, hpd⟩

theorem depthAt_le_of_inSearchBox (sinf : ℚ → ℚ) (cfg : Config) (f : DepthFrame) (p : ℕ × ℕ)
    (h : inSearchBox sinf cfg f p = true) : depthAt f p ≤ cfg.max_z_ := by
  unfold inSearchBox at h
  unfold depthAt
  cases hs : f.sample p.1 p.2 with
  | none => rw [hs] at h; exact absurd h (by simp)
  | some d =>
    rw [hs] at h
    simp only [decide_eq_true_eq] at h
    simpa using h.1

/-- `updateState` writes `STATE` and nothing else. -/
theorem Fsm.updateState_fst (s : Fsm.State) :
    (Fsm.updateState s).1 = { s with STATE := (Fsm.updateState s).1.STATE } := by
  unfold Fsm.updateState
  split_ifs <;> rfl

/-! ## Lemmas on the blended controller -/

/-- The obstacle branch of `imagecb` publishes the reverse command whatever
`enabled_` is. -/
theorem Follower.commands_of_many_points (s : Follower.State) (r : Scan) (hn : 4000 < r.n) :
    commands (Follower.imagecb_control s r) = [⟨-(5/2), 0⟩] := by
  have h1 : ¬ r.n < 4000 := by omega
  simp [Follower.imagecb_control, Follower.publishBbox, hn, h1, commands]

/-! ## Lemmas on the face callbacks -/

/-- The callback is `updateState` run on the members it has just written. -/
theorem Fsm.personDetectionCallBack_eq (s : Fsm.State) (faces : List Face) :
    Fsm.personDetectionCallBack s faces
      = Fsm.updateState (Fsm.personDetectionCallBack_flags s faces) := by
  cases faces <;> rfl

/-- The equal-weight average of a normalized pixel coordinate and a value
of [-0.5, 0.5] stays in [-0.5, 0.5]. -/
theorem smooth_mem_range (c x : ℚ) (h0 : 0 ≤ c) (h1 : c ≤ 640)
    (hx0 : -(1/2) ≤ x) (hx1 : x ≤ 1/2) :
    -(1/2) ≤ ((c - 320) / 640 + x) / 2 ∧ ((c - 320) / 640 + x) / 2 ≤ 1/2 := by
  constructor <;> linarith

theorem Fsm.inRange_after_face_update (s : Fsm.State) (m : List Face)
    (hm : centreInFrame m) (hs : Fsm.inRange s) :
    Fsm.inRange (Fsm.personDetectionCallBack s m).1 := by
  rw [Fsm.personDetectionCallBack_eq, Fsm.updateState_fst]
  obtain ⟨hx0, hx1, hy0, hy1⟩ := hs
  cases m with
  | nil => exact ⟨hx0, hx1, hy0, hy1⟩
  | cons face0 rest =>
    obtain ⟨cx0, cx1, cy0, cy1⟩ := hm
    have hx := smooth_mem_range face0.centerX s.x_face cx0 cx1 hx0 hx1
    have hy := smooth_mem_range face0.centerY s.y_face cy0 cy1 hy0 hy1
    exact ⟨hx.1, hx.2, hy.1, hy.2⟩

theorem Follower.inRange_after_target_update (s : Follower.State) (m : List Face)
    (hm : centreInFrame m) (hs : Follower.inRange s) :
    Follower.inRange (Follower.personDetectionCallBack s m).1 := by
  obtain ⟨hx0, hx1, hy0, hy1⟩ := hs
  cases m with
  | nil => exact ⟨hx0, hx1, hy0, hy1⟩
  | cons face0 rest =>
    obtain ⟨cx0, cx1, cy0, cy1⟩ := hm
    have hx := smooth_mem_range face0.centerX s.x_yellow cx0 cx1 hx0 hx1
    have hy := smooth_mem_range face0.centerY s.y_yellow cy0 cy1 hy0 hy1
    exact ⟨hx.1, hx.2, hy.1, hy.2⟩

/-- `updateState` in terms of the arm of its chain that runs. -/
theorem Fsm.updateState_of_branch (s : Fsm.State) :
    Fsm.updateState s =
      if Fsm.updateState_branch s = 1 then ({ s with STATE := 0 }, Fsm.searchMode s)
      else if Fsm.updateState_branch s = 2 then ({ s with STATE := 1 }, Fsm.avoidObstacle s)
      else if Fsm.updateState_branch s = 3 then ({ s with STATE := 2 }, Fsm.moveToHuman s)
      else if Fsm.updateState_branch s = 4 then ({ s with STATE := 3 }, Fsm.engageWithHuman s)
      else ({ s with STATE := 0 }, Fsm.searchMode s) := by
  unfold Fsm.updateState Fsm.updateState_branch
  split_ifs <;> first | rfl | omega

/-- `updateState` stores ENGAGE exactly when a face is found and it is
close, whatever the obstacle flag holds. -/
theorem Fsm.updateState_engage_iff (s : Fsm.State) :
    (Fsm.updateState s).1.STATE = 3 ↔ s.face_found = true ∧ s.is_close_to_human = 1 := by
  have h01 : (0 : ℚ) ≠ 1 := by norm_num
  have n0 : (0 : Int) ≠ 3 := by decide
  have n1 : (1 : Int) ≠ 3 := by decide
  have n2 : (2 : Int) ≠ 3 := by decide
  unfold Fsm.updateState
  split_ifs with h1 h2 h3 h4
  · constructor
    · intro h; exact absurd h n0
    · rintro ⟨_, hc⟩; rw [h1.2.2] at hc; exact absurd hc h01
  · constructor
    · intro h; exact absurd h n1
    · rintro ⟨_, hc⟩; rw [h2.2] at hc; exact absurd hc h01
  · constructor
    · intro h; exact absurd h n2
    · rintro ⟨_, hc⟩; rw [h3.2.2] at hc; exact absurd hc h01
  · exact ⟨fun _ => h4, fun _ => rfl⟩
  · constructor
    · intro h; exact absurd h n0
    · intro h; exact absurd h h4

/-! ## The tables of the source against the tables of the specification -/

/-- The column table of the source is the one of the specification. -/
theorem sin_pixel_x_eq_spec (sinf : ℚ → ℚ) (w u : Nat) :
    sin_pixel_x sinf w u = sinf (specColAngle w u) := by
  unfold sin_pixel_x specColAngle
  congr 1
  ring

/-- On a frame as wide as it is high the row table of the source is the
one of the specification. -/
theorem sin_pixel_y_eq_spec_of_square (sinf : ℚ → ℚ) (n v : Nat) :
    sin_pixel_y sinf n n v = sinf (specRowAngle n v) := by
  unfold sin_pixel_y specRowAngle
  congr 1
  ring

theorem specInSearchBox_eq_of_square (sinf : ℚ → ℚ) (cfg : Config) (f : DepthFrame)
    (hsq : f.width = f.height) (p : ℕ × ℕ) :
    specInSearchBox sinf cfg f p = inSearchBox sinf cfg f p := by
  unfold specInSearchBox inSearchBox
  rw [sin_pixel_x_eq_spec, hsq, sin_pixel_y_eq_spec_of_square]

theorem specAcceptedPixels_eq_of_square (sinf : ℚ → ℚ) (cfg : Config) (f : DepthFrame)
    (hsq : f.width = f.height) :
    specAcceptedPixels sinf cfg f = acceptedPixels sinf cfg f := by
  unfold specAcceptedPixels acceptedPixels
  congr 1
  funext p
  rw [specInSearchBox_eq_of_square sinf cfg f hsq p]

theorem mem_specAcceptedPixels (sinf : ℚ → ℚ) (cfg : Config) (f : DepthFrame) (p : ℕ × ℕ) :
    p ∈ specAcceptedPixels sinf cfg f ↔
      (p.1 < f.width ∧ p.2 < f.height) ∧ specInSearchBox sinf cfg f p = true := by
  simp [specAcceptedPixels, pixels]

/-- With no pixel accepted by the loop the scan ends where it started. -/
theorem scan_eq_init_of_no_accepted (sinf : ℚ → ℚ) (cfg : Config) (f : DepthFrame)
    (hA : acceptedPixels sinf cfg f = ∅) : scan sinf cfg f = Scan.init := by
  obtain ⟨hn, hx, hy, _, _, hz3⟩ := scan_spec sinf cfg f
  have h0 : (scan sinf cfg f).n = 0 := by rw [hn, hA]; rfl
  have hx0 : (scan sinf cfg f).x = 0 := by rw [hx, hA]; rfl
  have hy0 : (scan sinf cfg f).y = 0 := by rw [hy, hA]; rfl
  have hz0 : (scan sinf cfg f).z = 1000000 := by
    rcases hz3 with h | ⟨p, hp, _⟩
    · exact h
    · rw [hA] at hp; exact absurd hp (Finset.not_mem_empty p)
  cases hr : scan sinf cfg f with
  | mk x y z n =>
    rw [hr] at h0 hx0 hy0 hz0
    simp only at h0 hx0 hy0 hz0
    rw [h0, hx0, hy0, hz0]
    rfl

end ChezBot

namespace ChezBot

/-- C1: for all eight combinations of (faceFound, obstacleDetected,
closeToHuman) `updateState` stores the state of the transition table, and the
table has the five rows listed: (F,F,F) SEARCH, (any,T,F) AVOID, (T,F,F)
APPROACH, (T,any,T) ENGAGE, and (F,F,T), (F,T,T) SEARCH. -/
theorem C1_updateState_table :
    (∀ (s : Fsm.State) (f o c : Bool),
      (Fsm.updateState { s with face_found := f, obstacle_detected := Fsm.ofBool o,
                                is_close_to_human := Fsm.ofBool c }).1.STATE
        = Fsm.tableState f o c) ∧
    Fsm.tableState false false false = 0 ∧
    (∀ f, Fsm.tableState f true false = 1) ∧
    Fsm.tableState true false false = 2 ∧
    (∀ o, Fsm.tableState true o true = 3) ∧
    Fsm.tableState false false true = 0 ∧
    Fsm.tableState false true true = 0 := by
  refine ⟨?_, rfl, ?_, rfl, ?_, rfl, rfl⟩
  · intro s f o c
    cases f <;> cases o <;> cases c <;>
      simp [Fsm.updateState, Fsm.ofBool, Fsm.tableState]
  · intro f; cases f <;> rfl
  · intro o; cases o <;> rfl

end ChezBot

namespace ChezBot

/-- C2 (evaluation at the failing inputs): with `enabled_` false the
blended nodelet still publishes the reverse command (-2.5, 0) whenever the scan
ends with more than 4000 points, although its other branches publish nothing
when disabled; and `updateState` of the state-machine nodelet, which never
reads `enabled_`, still publishes the search command (0.3, 0). -/
theorem C2_disabled_still_publishes :
    (∀ (s : Follower.State) (r : Scan),
      commands (Follower.imagecb_control { s with enabled_ := false }
        { r with n := r.n + 4001 }) = [⟨-(5/2), 0⟩]) ∧
    (∀ (s : Follower.State) (r : Scan), r.n ≤ 4000 →
      commands (Follower.imagecb_control { s with enabled_ := false } r) = []) ∧
    (∀ s : Fsm.State,
      commands (Fsm.updateState
        { s with enabled_ := false, face_found := false, obstacle_detected := 0,
                 is_close_to_human := 0 }).2 = [⟨3/10, 0⟩]) ∧
    commands (Follower.imagecb_control { followerOn with enabled_ := false }
        { x := 0, y := 801, z := 1/2, n := 4001 }) = [⟨-(5/2), 0⟩] ∧
    fsmIdle.enabled_ = false ∧
    commands (Fsm.updateState fsmIdle).2 = [⟨3/10, 0⟩] := by
  refine ⟨?_, ?_, ?_, ?_, rfl, ?_⟩
  · intro s r
    exact Follower.commands_of_many_points _ _ (by show 4000 < r.n + 4001; omega)
  · intro s r hn
    have h1 : ¬ 4000 < r.n := by omega
    by_cases h2 : r.n < 4000 <;> cases hc : s.color_found <;>
      simp [Follower.imagecb_control, Follower.publishMarker, Follower.publishBbox,
        h1, h2, hc, commands]
  · intro s
    simp [Fsm.updateState, Fsm.searchMode, commands]
  · simp [Follower.imagecb_control, Follower.publishBbox, followerOn, commands]
  · simp [Fsm.updateState, Fsm.searchMode, fsmIdle, commands]

/-- C3 (as stated, refuted): in a run of two consecutive `updateState`
evaluations that both select ENGAGE, the second evaluation runs the greeting
again, so the run greets twice and not once. -/
theorem C3_greeting_fires_again :
    (Fsm.updateState { fsmIdle with face_found := true, is_close_to_human := 1 }).1.STATE = 3 ∧
    (Fsm.updateState
      (Fsm.updateState { fsmIdle with face_found := true, is_close_to_human := 1 }).1).1.STATE = 3 ∧
    Fsm.greetingsPerTick
      [{ fsmIdle with face_found := true, is_close_to_human := 1 },
       (Fsm.updateState { fsmIdle with face_found := true, is_close_to_human := 1 }).1]
      = [1, 1] ∧
    Fsm.greetingsPerTick
      [{ fsmIdle with face_found := true, is_close_to_human := 1 },
       (Fsm.updateState { fsmIdle with face_found := true, is_close_to_human := 1 }).1]
      ≠ [1, 0] := by
  simp [Fsm.greetingsPerTick, Fsm.updateState, Fsm.engageWithHuman, fsmIdle, greetings]

/-- C3 (amended): in every run of `updateState` evaluations that all select
ENGAGE (face_found and is_close_to_human true at each evaluation) the greeting
runs once at every evaluation, N times over a run of N evaluations, and no
velocity command is published; in particular a run of N face messages whose
first face is wider than 100 px greets N times. -/
theorem C3_greeting_every_tick (ss : List Fsm.State)
    (h : ∀ s ∈ ss, s.face_found = true ∧ s.is_close_to_human = 1) :
    Fsm.greetingsPerTick ss = List.replicate ss.length 1 ∧
    (Fsm.greetingsPerTick ss).sum = ss.length ∧
    (∀ s ∈ ss, (Fsm.updateState s).1.STATE = 3 ∧ commands (Fsm.updateState s).2 = []) ∧
    (∀ (s0 : Fsm.State) (msgs : List (List Face)),
      (∀ m ∈ msgs, ∃ face0 rest, m = face0 :: rest ∧ 100 < face0.width) →
      greetings (Fsm.runFaces s0 msgs).2 = msgs.length) := by
  have key : ∀ s : Fsm.State, s.face_found = true ∧ s.is_close_to_human = 1 →
      Fsm.updateState s = ({ s with STATE := 3 }, [Event.speak]) := by
    intro s hs
    simp [Fsm.updateState, Fsm.engageWithHuman, hs.1, hs.2]
  have h1 : Fsm.greetingsPerTick ss = List.replicate ss.length 1 := by
    induction ss with
    | nil => rfl
    | cons s ss ih =>
      have hs := key s (h s (List.mem_cons_self _ _))
      have ih2 := ih (fun t ht => h t (List.mem_cons_of_mem _ ht))
      simp only [Fsm.greetingsPerTick, List.map_cons, List.length_cons,
        List.replicate_succ] at ih2 ⊢
      rw [ih2, hs]
      rfl
  refine ⟨h1, ?_, ?_, ?_⟩
  · rw [h1]; simp
  · intro s hs
    rw [key s (h s hs)]
    exact ⟨rfl, rfl⟩
  · intro s0 msgs
    induction msgs generalizing s0 with
    | nil => intro _; rfl
    | cons m ms ih =>
      intro hm
      obtain ⟨face0, rest, rfl, hw⟩ := hm m (List.mem_cons_self _ _)
      have ih2 := fun s1 => ih s1 (fun m2 h2 => hm m2 (List.mem_cons_of_mem _ h2))
      have hcb : (Fsm.personDetectionCallBack s0 (face0 :: rest)).2 = [Event.speak] := by
        simp only [Fsm.personDetectionCallBack]
        rw [key]
        exact ⟨rfl, by simp [hw]⟩
      simp only [Fsm.runFaces, List.length_cons]
      rw [hcb]
      show greetings (Fsm.runFaces _ ms).2 + 1 = ms.length + 1
      rw [ih2]

/-- Witness for C3 (amended): a run of three evaluations in ENGAGE. -/
theorem C3_greeting_every_tick_witness :
    Fsm.greetingsPerTick
      (List.replicate 3 { fsmIdle with face_found := true, is_close_to_human := 1 })
      = [1, 1, 1] :=
  (C3_greeting_every_tick
    (List.replicate 3 { fsmIdle with face_found := true, is_close_to_human := 1 })
    (by
      intro s hs
      rw [List.eq_of_mem_replicate hs]
      exact ⟨rfl, rfl⟩)).1

/-- C4: BlendedController follow row.  For every scan result with point
count n < 4000, every smoothed target x (`x_yellow`) and every `z_scale_`,
with `color_found` and `enabled_` true, `imagecb` publishes exactly one
command, with linearX = 0.05 and angularZ = -x * z_scale. -/
theorem C4_follow_row (sinf : ℚ → ℚ) (s : Follower.State) (f : DepthFrame) (r : Scan)
    (hn : r.n < 4000) (hc : s.color_found = true) (he : s.enabled_ = true) :
    commands (Follower.imagecb_control s r) = [⟨1/20, -s.x_yellow * s.cfg.z_scale_⟩] ∧
    (scan sinf s.cfg f = r →
      commands (Follower.imagecb sinf s f).2 = [⟨1/20, -s.x_yellow * s.cfg.z_scale_⟩]) := by
  have h1 : commands (Follower.imagecb_control s r)
      = [⟨1/20, -s.x_yellow * s.cfg.z_scale_⟩] := by
    simp [Follower.imagecb_control, Follower.publishMarker, Follower.publishBbox,
      hn, hc, he, commands]
  refine ⟨h1, ?_⟩
  intro hr
  simp only [Follower.imagecb, hr]
  exact h1

/-- Witness for C4: n = 3999, x = 0.25, z_scale = 1.0 gives linearX = 0.05
and angularZ = -0.25. -/
theorem C4_follow_row_witness :
    commands (Follower.imagecb_control followerOn { x := 7, y := 9, z := 1/2, n := 3999 })
      = [⟨1/20, -(1/4)⟩] := by
  have h := (C4_follow_row (fun a => a) followerOn ⟨0, 0, 0, fun _ => none⟩
    { x := 7, y := 9, z := 1/2, n := 3999 } (by decide) rfl rfl).1
  rw [h]
  simp [followerOn, Config.default]

/-- C5 (as stated, refuted): at n = 4000 with no colour target and the
controller enabled the table of the specification gives the stop command
(0, 0), while `imagecb` publishes no command at all. -/
theorem C5_threshold_no_target_silent :
    commands (Follower.imagecb_control { followerOn with color_found := false }
        { x := 0, y := 800, z := 1/2, n := 4000 }) = [] ∧
    Follower.blendedTable 4000 false (1/4) 1 = [⟨0, 0⟩] ∧
    commands (Follower.imagecb_control { followerOn with color_found := false }
        { x := 0, y := 800, z := 1/2, n := 4000 })
      ≠ Follower.blendedTable 4000 false
          ({ followerOn with color_found := false } : Follower.State).x_yellow
          ({ followerOn with color_found := false } : Follower.State).cfg.z_scale_ := by
  simp [Follower.imagecb_control, Follower.publishBbox, Follower.blendedTable, followerOn,
    commands]

/-- C5 (amended): with `enabled_` true and threshold 4000 the commands
`imagecb` publishes are: (0.05, -x*z_scale) if n < 4000 and the target is
valid; (-2.5, 0) if n > 4000; no command if n <= 4000 and there is no colour
target; the stop command (0, 0) in the one remaining case, n = 4000 with a
valid target.  This is the table of the specification everywhere except at
n = 4000 with no colour target. -/
theorem C5_blended_branches (s : Follower.State) (r : Scan) (he : s.enabled_ = true) :
    (r.n < 4000 → s.color_found = true →
      commands (Follower.imagecb_control s r) = [⟨1/20, -s.x_yellow * s.cfg.z_scale_⟩]) ∧
    (r.n > 4000 → commands (Follower.imagecb_control s r) = [⟨-(5/2), 0⟩]) ∧
    (r.n ≤ 4000 → s.color_found = false → commands (Follower.imagecb_control s r) = []) ∧
    (r.n = 4000 → s.color_found = true →
      commands (Follower.imagecb_control s r) = [⟨0, 0⟩]) ∧
    (¬ (r.n = 4000 ∧ s.color_found = false) →
      commands (Follower.imagecb_control s r)
        = Follower.blendedTable r.n s.color_found s.x_yellow s.cfg.z_scale_) := by
  refine ⟨?_, ?_, ?_, ?_, ?_⟩
  · intro hn hc
    simp [Follower.imagecb_control, Follower.publishMarker, Follower.publishBbox,
      hn, hc, he, commands]
  · intro hn
    exact Follower.commands_of_many_points s r hn
  · intro hn hc
    have h1 : ¬ 4000 < r.n := by omega
    simp [Follower.imagecb_control, Follower.publishBbox, hc, h1, commands]
  · intro hn hc
    simp [Follower.imagecb_control, Follower.publishMarker, Follower.publishBbox,
      hn, hc, he, commands, Twist.zero]
  · intro hne
    rcases Nat.lt_trichotomy r.n 4000 with hlt | heq | hgt
    · have h1 : ¬ 4000 < r.n := by omega
      cases hc : s.color_found <;>
        simp [Follower.imagecb_control, Follower.publishMarker, Follower.publishBbox,
          Follower.blendedTable, hlt, h1, hc, he, commands]
    · have hc : s.color_found = true := by
        cases hc : s.color_found
        · exact absurd ⟨heq, hc⟩ hne
        · rfl
      simp [Follower.imagecb_control, Follower.publishMarker, Follower.publishBbox,
        Follower.blendedTable, heq, hc, he, commands, Twist.zero]
    · have h1 : ¬ r.n < 4000 := by omega
      simp [Follower.imagecb_control, Follower.publishBbox, Follower.blendedTable,
        hgt, h1, commands]

/-- Witness for C5 (amended): the enabled controller at n = 4000 with a
valid target publishes the stop command. -/
theorem C5_blended_branches_witness :
    followerOn.enabled_ = true ∧
    commands (Follower.imagecb_control followerOn { x := 0, y := 800, z := 1/2, n := 4000 })
      = [⟨0, 0⟩] :=
  ⟨rfl, (C5_blended_branches followerOn { x := 0, y := 800, z := 1/2, n := 4000 } rfl).2.2.2.1
    rfl rfl⟩

/-- C6: the obstacle signal `updateObstacle` stores is true exactly when the
point count of the scan is strictly greater than 4000 (and false otherwise);
n = 4000 and n = 3999 give not-obstacle, n = 4001 gives obstacle. -/
theorem C6_obstacle_iff_count_gt_4000 :
    (∀ (sinf : ℚ → ℚ) (s : Fsm.State) (f : DepthFrame),
      ((Fsm.updateObstacle sinf s f).1.obstacle_detected = 1 ↔ 4000 < (scan sinf s.cfg f).n) ∧
      ((Fsm.updateObstacle sinf s f).1.obstacle_detected = 0 ↔ (scan sinf s.cfg f).n ≤ 4000)) ∧
    (∀ (s : Fsm.State) (n : Nat),
      (Fsm.updateObstacle_threshold s n).obstacle_detected = Fsm.ofBool (decide (4000 < n))) ∧
    (∀ s : Fsm.State, (Fsm.updateObstacle_threshold s 4000).obstacle_detected = 0) ∧
    (∀ s : Fsm.State, (Fsm.updateObstacle_threshold s 3999).obstacle_detected = 0) ∧
    (∀ s : Fsm.State, (Fsm.updateObstacle_threshold s 4001).obstacle_detected = 1) := by
  have key : ∀ (s : Fsm.State) (n : Nat),
      (Fsm.updateObstacle_threshold s n).obstacle_detected = Fsm.ofBool (decide (4000 < n)) := by
    intro s n
    by_cases h : 4000 < n <;> simp [Fsm.updateObstacle_threshold, Fsm.ofBool, h]
  refine ⟨?_, key, ?_, ?_, ?_⟩
  · intro sinf s f
    simp only [Fsm.updateObstacle, key]
    by_cases h : 4000 < (scan sinf s.cfg f).n
    · simp [Fsm.ofBool, h]
    · simp [Fsm.ofBool, h]
      omega
  · intro s; rw [key]; simp [Fsm.ofBool]
  · intro s; rw [key]; simp [Fsm.ofBool]
  · intro s; rw [key]; simp [Fsm.ofBool]

/-- C8 (as stated, refuted), on two inputs.  Sentinel: in the 2 x 2
`frameFarther` with `max_z = 3e6` exactly one pixel, (1, 1) at depth d = 2e6,
passes the filters of the specification; the scan ends with n = 1 but with
z = 1e6, not z = d.  Row table: in the 320 x 240 `frameQVGA` under the default
configuration exactly one pixel, (160, 50) at depth 0.5, passes the filters of
the specification; the scan ends with n = 0 and z = 1e6, not n = 1 and
z = 0.5. -/
theorem C8_single_pixel_differs_from_stated_claim :
    (1, 1) ∈ specAcceptedPixels sinCubic cfgFarther frameFarther ∧
    (∀ p ∈ specAcceptedPixels sinCubic cfgFarther frameFarther, p = (1, 1)) ∧
    frameFarther.sample 1 1 = some 2000000 ∧
    (scan sinCubic cfgFarther frameFarther).n = 1 ∧
    (scan sinCubic cfgFarther frameFarther).z = 1000000 ∧
    (scan sinCubic cfgFarther frameFarther).z ≠ 2000000 ∧
    (160, 50) ∈ specAcceptedPixels sinCubic Config.default frameQVGA ∧
    (∀ p ∈ specAcceptedPixels sinCubic Config.default frameQVGA, p = (160, 50)) ∧
    frameQVGA.sample 160 50 = some (1/2) ∧
    (scan sinCubic Config.default frameQVGA).n = 0 ∧
    (scan sinCubic Config.default frameQVGA).z = 1000000 := by
  have hz : (scan sinCubic cfgFarther frameFarther).z = 1000000 := by
    norm_num [scan, scanRow, List.range_succ, pixelStep, DepthFrame.sample, frameFarther,
      cfgFarther, Config.default, Scan.init, sin_pixel_x, sin_pixel_y, sinCubic]
  have hcode : acceptedPixels sinCubic Config.default frameQVGA = ∅ := by
    apply Finset.eq_empty_of_forall_not_mem
    rintro ⟨u, v⟩ hp
    have hmp := (mem_acceptedPixels sinCubic Config.default frameQVGA (u, v)).mp hp
    have hw : frameQVGA.width = 320 := by simp [frameQVGA]
    have hu2 : u < 320 := by rw [← hw]; exact hmp.1.1
    have hb := hmp.2
    by_cases hi : v * 320 + u = 16160
    · have h1 : u = 160 := by omega
      have h2 : v = 50 := by omega
      subst h1
      subst h2
      have hrej : inSearchBox sinCubic Config.default frameQVGA (160, 50) = false := by
        norm_num [inSearchBox, DepthFrame.sample, frameQVGA, Config.default, sin_pixel_x,
          sin_pixel_y, sinCubic]
      rw [hrej] at hb
      exact absurd hb (by simp)
    · have hs : frameQVGA.sample u v = none := by simp [DepthFrame.sample, frameQVGA, hi]
      unfold inSearchBox at hb
      simp only [hs] at hb
      exact absurd hb (by simp)
  have hinit := scan_eq_init_of_no_accepted _ _ _ hcode
  refine ⟨?_, ?_, ?_, ?_, hz, ?_, ?_, ?_, ?_, ?_, ?_⟩
  · rw [mem_specAcceptedPixels]
    norm_num [specInSearchBox, DepthFrame.sample, frameFarther, cfgFarther, Config.default,
      specColAngle, specRowAngle, sinCubic]
  · rintro ⟨u, v⟩ hp
    obtain ⟨⟨hu, hv⟩, hb⟩ := (mem_specAcceptedPixels _ _ _ _).mp hp
    have hu2 : u < 2 := hu
    have hv2 : v < 2 := hv
    have hi : v * 2 + u = 3 := by
      by_contra hi
      unfold specInSearchBox at hb
      simp [DepthFrame.sample, frameFarther, hi] at hb
    exact Prod.ext (by show u = 1; omega) (by show v = 1; omega)
  · simp [DepthFrame.sample, frameFarther]
  · norm_num [scan, scanRow, List.range_succ, pixelStep, DepthFrame.sample, frameFarther,
      cfgFarther, Config.default, Scan.init, sin_pixel_x, sin_pixel_y, sinCubic]
  · rw [hz]; norm_num
  · rw [mem_specAcceptedPixels]
    norm_num [specInSearchBox, DepthFrame.sample, frameQVGA, Config.default, specColAngle,
      specRowAngle, sinCubic]
  · rintro ⟨u, v⟩ hp
    have hmp := (mem_specAcceptedPixels sinCubic Config.default frameQVGA (u, v)).mp hp
    have hw : frameQVGA.width = 320 := by simp [frameQVGA]
    have hu2 : u < 320 := by rw [← hw]; exact hmp.1.1
    have hb := hmp.2
    have hi : v * 320 + u = 16160 := by
      by_contra hi
      have hs : frameQVGA.sample u v = none := by simp [DepthFrame.sample, frameQVGA, hi]
      unfold specInSearchBox at hb
      simp only [hs] at hb
      exact absurd hb (by simp)
    exact Prod.ext (by show u = 160; omega) (by show v = 50; omega)
  · simp [DepthFrame.sample, frameQVGA]
  · rw [hinit]; rfl
  · rw [hinit]; rfl

/-- C8 (amended): for every frame whose width equals its height and every
configuration in which exactly one pixel (u, v) passes the validity, `max_z`
and search-box filters of the specification, with depth d, the scan ends with
n = 1, x = sin(colAngle[u]) * d, y = sin(rowAngle[v]) * d (bearing tables of
the specification) and z = min(1e6, d); so z = d whenever d is at most 1e6, in
particular whenever `max_z` is at most 1e6. -/
theorem C8_single_pixel (sinf : ℚ → ℚ) (cfg : Config) (f : DepthFrame) (u v : ℕ) (d : ℚ)
    (hsq : f.width = f.height)
    (hmem : (u, v) ∈ specAcceptedPixels sinf cfg f)
    (huniq : ∀ p ∈ specAcceptedPixels sinf cfg f, p = (u, v))
    (hd : f.sample u v = some d) :
    (scan sinf cfg f).n = 1 ∧
    (scan sinf cfg f).x = sinf (specColAngle f.width u) * d ∧
    (scan sinf cfg f).y = sinf (specRowAngle f.height v) * d ∧
    (scan sinf cfg f).z = min 1000000 d ∧
    (d ≤ 1000000 → (scan sinf cfg f).z = d) ∧
    (cfg.max_z_ ≤ 1000000 → (scan sinf cfg f).z = d) := by
  rw [specAcceptedPixels_eq_of_square sinf cfg f hsq] at hmem huniq
  have hA : acceptedPixels sinf cfg f = {(u, v)} :=
    Finset.eq_singleton_iff_unique_mem.mpr ⟨hmem, huniq⟩
  have hdep : depthAt f (u, v) = d := by simp [depthAt, hd]
  obtain ⟨hn, hx, hy, hz1, hz2, hz3⟩ := scan_spec sinf cfg f
  rw [hA] at hn hx hy hz2 hz3
  have hzd : (scan sinf cfg f).z ≤ d := by
    have := hz2 (u, v) (Finset.mem_singleton_self _)
    rwa [hdep] at this
  have hz : (scan sinf cfg f).z = min 1000000 d := by
    rcases hz3 with h | ⟨p, hp, hpz⟩
    · rw [h]
      rw [h] at hzd
      exact (min_eq_left hzd).symm
    · rw [Finset.mem_singleton.mp hp, hdep] at hpz
      rw [← hpz]
      rw [← hpz] at hz1
      exact (min_eq_right hz1).symm
  refine ⟨by rw [hn]; rfl, ?_, ?_, hz, ?_, ?_⟩
  · rw [hx, Finset.sum_singleton, xAt, hdep, sin_pixel_x_eq_spec]
  · rw [hy, Finset.sum_singleton, yAt, hdep, hsq, sin_pixel_y_eq_spec_of_square]
  · intro h
    rw [hz]; exact min_eq_right h
  · intro h
    have h2 := depthAt_le_of_inSearchBox sinf cfg f (u, v)
      ((mem_acceptedPixels _ _ _ _).mp hmem).2
    rw [hdep] at h2
    rw [hz]; exact min_eq_right (le_trans h2 h)

/-- Witness for C8 (amended): the 2 x 2 `frameOne` under the default
configuration has the single accepted pixel (1, 0), at depth 0.5. -/
theorem C8_single_pixel_witness :
    frameOne.width = frameOne.height ∧
    (scan sinCubic Config.default frameOne).n = 1 ∧
    (scan sinCubic Config.default frameOne).x = sinCubic (specColAngle 2 1) * (1/2) ∧
    (scan sinCubic Config.default frameOne).y = sinCubic (specRowAngle 2 0) * (1/2) ∧
    (scan sinCubic Config.default frameOne).z = 1/2 := by
  have hmem : (1, 0) ∈ specAcceptedPixels sinCubic Config.default frameOne := by
    rw [mem_specAcceptedPixels]
    norm_num [specInSearchBox, DepthFrame.sample, frameOne, Config.default, specColAngle,
      specRowAngle, sinCubic]
  have huniq : ∀ p ∈ specAcceptedPixels sinCubic Config.default frameOne, p = (1, 0) := by
    rintro ⟨u, v⟩ hp
    obtain ⟨⟨hu, hv⟩, hb⟩ := (mem_specAcceptedPixels _ _ _ _).mp hp
    have hu2 : u < 2 := hu
    have hv2 : v < 2 := hv
    have hi : v * 2 + u = 1 := by
      by_contra hi
      unfold specInSearchBox at hb
      simp [DepthFrame.sample, frameOne, hi] at hb
    exact Prod.ext (by show u = 1; omega) (by show v = 0; omega)
  have hd : frameOne.sample 1 0 = some (1/2) := by simp [DepthFrame.sample, frameOne]
  have h := C8_single_pixel sinCubic Config.default frameOne 1 0 (1/2) rfl hmem huniq hd
  exact ⟨rfl, h.1, h.2.1, h.2.2.1, h.2.2.2.2.1 (by norm_num)⟩

/-- C9 (evaluation at the failing input): the scan never divides by n.  For
every frame the x and y it ends with are the sums of the projected x and y over
the accepted pixels; the stop branch of `imagecb` hands exactly these values
to `publishMarker`, and the follow branch hands `x_yellow`, `y_yellow`.  On
`frameTwo` (two accepted pixels) the scan ends with n = 2 and with y the sum
of the two projections, which is not their mean. -/
theorem C9_scan_yields_sums_not_means :
    (∀ (sinf : ℚ → ℚ) (cfg : Config) (f : DepthFrame),
      (scan sinf cfg f).x = (acceptedPixels sinf cfg f).sum (xAt sinf f) ∧
      (scan sinf cfg f).y = (acceptedPixels sinf cfg f).sum (yAt sinf f)) ∧
    (∀ (s : Follower.State) (r : Scan), r.n = 4000 → s.color_found = true →
      (Follower.imagecb_control s r).head? = some (Event.marker r.x r.y r.z)) ∧
    (∀ (s : Follower.State) (r : Scan), r.n < 4000 → s.color_found = true →
      (Follower.imagecb_control s r).head? = some (Event.marker s.x_yellow s.y_yellow r.z)) ∧
    (scan sinCubic Config.default frameTwo).n = 2 ∧
    (scan sinCubic Config.default frameTwo).y
      = yAt sinCubic frameTwo (0, 0) + yAt sinCubic frameTwo (1, 0) ∧
    (scan sinCubic Config.default frameTwo).y = 25317 / 109744 ∧
    (scan sinCubic Config.default frameTwo).y
      ≠ (yAt sinCubic frameTwo (0, 0) + yAt sinCubic frameTwo (1, 0)) / 2 := by
  have hy : (scan sinCubic Config.default frameTwo).y = 25317 / 109744 := by
    norm_num [scan, scanRow, List.range_succ, pixelStep, DepthFrame.sample, frameTwo,
      Config.default, Scan.init, sin_pixel_x, sin_pixel_y, sinCubic]
  have hsum : yAt sinCubic frameTwo (0, 0) + yAt sinCubic frameTwo (1, 0) = 25317 / 109744 := by
    norm_num [yAt, depthAt, DepthFrame.sample, frameTwo, sin_pixel_y, sinCubic]
  refine ⟨?_, ?_, ?_, ?_, ?_, hy, ?_⟩
  · intro sinf cfg f
    exact ⟨(scan_spec sinf cfg f).2.1, (scan_spec sinf cfg f).2.2.1⟩
  · intro s r hn hc
    simp [Follower.imagecb_control, Follower.publishMarker, hn, hc]
  · intro s r hn hc
    simp [Follower.imagecb_control, Follower.publishMarker, hn, hc]
  · norm_num [scan, scanRow, List.range_succ, pixelStep, DepthFrame.sample, frameTwo,
      Config.default, Scan.init, sin_pixel_x, sin_pixel_y, sinCubic]
  · rw [hy, hsum]
  · rw [hy, hsum]; norm_num

/-- C10: for every non-empty face list and every previous smoothed value,
`personDetectionCallBack` replaces the smoothed target by the equal-weight
average of the normalized centre of the first face and the previous smoothed
value, per axis: x' = ((cx - 320)/640 + x)/2 and y' = ((cy - 320)/640 + y)/2,
the normalization being (c - 640/2)/640 on both axes; the faces after the first
do not influence the result.  This holds in the state-machine nodelet
(`x_face`, `y_face`) and in the blended nodelet (`x_yellow`, `y_yellow`). -/
theorem C10_smoothing_first_face :
    (∀ (s : Fsm.State) (face0 : Face) (rest : List Face),
      (Fsm.personDetectionCallBack s (face0 :: rest)).1.x_face
        = ((face0.centerX - 320) / 640 + s.x_face) / 2 ∧
      (Fsm.personDetectionCallBack s (face0 :: rest)).1.y_face
        = ((face0.centerY - 320) / 640 + s.y_face) / 2 ∧
      (face0.centerX - 320) / 640 = (face0.centerX - 640 / 2) / 640 ∧
      (face0.centerY - 320) / 640 = (face0.centerY - 640 / 2) / 640 ∧
      Fsm.personDetectionCallBack s (face0 :: rest) = Fsm.personDetectionCallBack s [face0]) ∧
    (∀ (s : Follower.State) (face0 : Face) (rest : List Face),
      (Follower.personDetectionCallBack s (face0 :: rest)).1.x_yellow
        = ((face0.centerX - 320) / 640 + s.x_yellow) / 2 ∧
      (Follower.personDetectionCallBack s (face0 :: rest)).1.y_yellow
        = ((face0.centerY - 320) / 640 + s.y_yellow) / 2 ∧
      Follower.personDetectionCallBack s (face0 :: rest)
        = Follower.personDetectionCallBack s [face0]) := by
  constructor
  · intro s face0 rest
    refine ⟨?_, ?_, by norm_num, by norm_num, rfl⟩
    · simp only [Fsm.personDetectionCallBack]
      rw [Fsm.updateState_fst]
    · simp only [Fsm.personDetectionCallBack]
      rw [Fsm.updateState_fst]
  · intro s face0 rest
    exact ⟨rfl, rfl, rfl⟩

/-- C11: the normalized target estimate stays in [-0.5, 0.5].  For every
sequence of face updates in which each non-empty message has its first face
centred at 0 <= cx <= 640, 0 <= cy <= 640, each single update (with or
without a face) maps a smoothed x, y inside [-0.5, 0.5] to one inside
[-0.5, 0.5], and so does the whole sequence; in the state-machine nodelet
(`x_face`, `y_face`) and in the blended nodelet (`x_yellow`, `y_yellow`). -/
theorem C11_smoothed_range_invariant (msgs : List (List Face))
    (h : ∀ m ∈ msgs, centreInFrame m) :
    (∀ m ∈ msgs, ∀ s : Fsm.State, Fsm.inRange s →
      Fsm.inRange (Fsm.personDetectionCallBack s m).1) ∧
    (∀ m ∈ msgs, ∀ s : Follower.State, Follower.inRange s →
      Follower.inRange (Follower.personDetectionCallBack s m).1) ∧
    (∀ s : Fsm.State, Fsm.inRange s → Fsm.inRange (Fsm.personDetectionCallBack s []).1) ∧
    (∀ s : Follower.State, Follower.inRange s →
      Follower.inRange (Follower.personDetectionCallBack s []).1) ∧
    (∀ s : Fsm.State, Fsm.inRange s → Fsm.inRange (Fsm.runFaces s msgs).1) ∧
    (∀ s : Follower.State, Follower.inRange s →
      Follower.inRange (Follower.runFaces s msgs).1) := by
  refine ⟨?_, ?_, ?_, ?_, ?_, ?_⟩
  · intro m hm s hs
    exact Fsm.inRange_after_face_update s m (h m hm) hs
  · intro m hm s hs
    exact Follower.inRange_after_target_update s m (h m hm) hs
  · intro s hs
    exact Fsm.inRange_after_face_update s [] trivial hs
  · intro s hs
    exact Follower.inRange_after_target_update s [] trivial hs
  · induction msgs with
    | nil => intro s hs; exact hs
    | cons m ms ih =>
      intro s hs
      have h1 := Fsm.inRange_after_face_update s m (h m (List.mem_cons_self _ _)) hs
      exact ih (fun m2 h2 => h m2 (List.mem_cons_of_mem _ h2)) _ h1
  · induction msgs with
    | nil => intro s hs; exact hs
    | cons m ms ih =>
      intro s hs
      have h1 := Follower.inRange_after_target_update s m (h m (List.mem_cons_self _ _)) hs
      exact ih (fun m2 h2 => h m2 (List.mem_cons_of_mem _ h2)) _ h1

/-- Witness for C11: a face at (480, 320), then no face, then a face at the
corner (0, 640), delivered to the idle state machine, whose smoothed position
starts at (0, 0). -/
theorem C11_smoothed_range_invariant_witness :
    Fsm.inRange fsmIdle ∧
    Fsm.inRange (Fsm.runFaces fsmIdle
      [[faceNear], [], [{ centerX := 0, centerY := 640, width := 50, height := 50 }]]).1 := by
  have hin : Fsm.inRange fsmIdle := by
    norm_num [Fsm.inRange, fsmIdle]
  refine ⟨hin, (C11_smoothed_range_invariant
    [[faceNear], [], [{ centerX := 0, centerY := 640, width := 50, height := 50 }]] ?_).2.2.2.2.1
    fsmIdle hin⟩
  intro m hm
  simp only [List.mem_cons, List.mem_singleton, List.not_mem_nil, or_false] at hm
  rcases hm with rfl | rfl | rfl
  · norm_num [centreInFrame, faceNear]
  · trivial
  · norm_num [centreInFrame]

/-- C12: a face update with an empty face list sets the presence flags to
false (`face_found` and `is_close_to_human` in the state-machine nodelet,
`face_found` and `color_found` in the blended nodelet) and leaves the smoothed
x and y unchanged, so the next detection with normalized centre c yields
(c + last smoothed value)/2, which is not c/2 unless the last smoothed value
is 0. -/
theorem C12_no_face_keeps_smoothed_value :
    (∀ s : Fsm.State,
      (Fsm.personDetectionCallBack s []).1.face_found = false ∧
      (Fsm.personDetectionCallBack s []).1.is_close_to_human = 0 ∧
      (Fsm.personDetectionCallBack s []).1.x_face = s.x_face ∧
      (Fsm.personDetectionCallBack s []).1.y_face = s.y_face ∧
      ∀ (face0 : Face) (rest : List Face),
        (Fsm.personDetectionCallBack (Fsm.personDetectionCallBack s []).1 (face0 :: rest)).1.x_face
          = ((face0.centerX - 320) / 640 + s.x_face) / 2 ∧
        (Fsm.personDetectionCallBack (Fsm.personDetectionCallBack s []).1 (face0 :: rest)).1.y_face
          = ((face0.centerY - 320) / 640 + s.y_face) / 2 ∧
        (s.x_face ≠ 0 →
          (Fsm.personDetectionCallBack (Fsm.personDetectionCallBack s []).1
            (face0 :: rest)).1.x_face ≠ ((face0.centerX - 320) / 640) / 2)) ∧
    (∀ s : Follower.State,
      (Follower.personDetectionCallBack s []).1.face_found = false ∧
      (Follower.personDetectionCallBack s []).1.color_found = false ∧
      (Follower.personDetectionCallBack s []).1.x_yellow = s.x_yellow ∧
      (Follower.personDetectionCallBack s []).1.y_yellow = s.y_yellow ∧
      ∀ (face0 : Face) (rest : List Face),
        (Follower.personDetectionCallBack (Follower.personDetectionCallBack s []).1
          (face0 :: rest)).1.x_yellow = ((face0.centerX - 320) / 640 + s.x_yellow) / 2 ∧
        (Follower.personDetectionCallBack (Follower.personDetectionCallBack s []).1
          (face0 :: rest)).1.y_yellow = ((face0.centerY - 320) / 640 + s.y_yellow) / 2 ∧
        (s.x_yellow ≠ 0 →
          (Follower.personDetectionCallBack (Follower.personDetectionCallBack s []).1
            (face0 :: rest)).1.x_yellow ≠ ((face0.centerX - 320) / 640) / 2)) := by
  constructor
  · intro s
    have h0 : (Fsm.personDetectionCallBack s []).1
        = { s with face_found := false, is_close_to_human := 0,
                   STATE := (Fsm.personDetectionCallBack s []).1.STATE } := by
      rw [Fsm.personDetectionCallBack_eq, Fsm.updateState_fst]
      rfl
    have hx : ∀ (face0 : Face) (rest : List Face),
        (Fsm.personDetectionCallBack (Fsm.personDetectionCallBack s []).1
          (face0 :: rest)).1.x_face = ((face0.centerX - 320) / 640 + s.x_face) / 2 := by
      intro face0 rest
      rw [Fsm.personDetectionCallBack_eq, Fsm.updateState_fst, h0]
      rfl
    have hy : ∀ (face0 : Face) (rest : List Face),
        (Fsm.personDetectionCallBack (Fsm.personDetectionCallBack s []).1
          (face0 :: rest)).1.y_face = ((face0.centerY - 320) / 640 + s.y_face) / 2 := by
      intro face0 rest
      rw [Fsm.personDetectionCallBack_eq, Fsm.updateState_fst, h0]
      rfl
    refine ⟨by rw [h0], by rw [h0], by rw [h0], by rw [h0], ?_⟩
    intro face0 rest
    refine ⟨hx face0 rest, hy face0 rest, ?_⟩
    intro hne heq
    rw [hx face0 rest] at heq
    apply hne
    linarith
  · intro s
    refine ⟨rfl, rfl, rfl, rfl, ?_⟩
    intro face0 rest
    refine ⟨rfl, rfl, ?_⟩
    intro hne heq
    have h2 : ((face0.centerX - 320) / 640 + s.x_yellow) / 2
        = ((face0.centerX - 320) / 640) / 2 := heq
    apply hne
    linarith

/-- C13: for every combination of (faceFound, obstacleDetected,
closeToHuman), smoothed `x_face` and `z_scale_`, one `updateState` evaluation
emits the action of the state it selects: SEARCH exactly one command
(0.3, 0), AVOID exactly one command (-1.0, 0), APPROACH exactly one command
(0.2, -x_face * z_scale), ENGAGE no velocity command (only the greeting). -/
theorem C13_updateState_actions :
    (∀ (s : Fsm.State) (f o c : Bool),
      (Fsm.updateState { s with face_found := f, obstacle_detected := Fsm.ofBool o,
                                is_close_to_human := Fsm.ofBool c }).1.STATE
        = Fsm.tableState f o c ∧
      commands (Fsm.updateState { s with face_found := f, obstacle_detected := Fsm.ofBool o,
                                         is_close_to_human := Fsm.ofBool c }).2
        = Fsm.stateAction (Fsm.tableState f o c) s.x_face s.cfg.z_scale_ ∧
      (Fsm.tableState f o c = 3 →
        (Fsm.updateState { s with face_found := f, obstacle_detected := Fsm.ofBool o,
                                  is_close_to_human := Fsm.ofBool c }).2 = [Event.speak])) ∧
    (∀ x z : ℚ, Fsm.stateAction 0 x z = [⟨3/10, 0⟩]) ∧
    (∀ x z : ℚ, Fsm.stateAction 1 x z = [⟨-1, 0⟩]) ∧
    (∀ x z : ℚ, Fsm.stateAction 2 x z = [⟨1/5, -x * z⟩]) ∧
    (∀ x z : ℚ, Fsm.stateAction 3 x z = []) := by
  refine ⟨?_, ?_, ?_, ?_, ?_⟩
  · intro s f o c
    cases f <;> cases o <;> cases c <;>
      simp [Fsm.updateState, Fsm.ofBool, Fsm.tableState, Fsm.stateAction, Fsm.searchMode,
        Fsm.avoidObstacle, Fsm.moveToHuman, Fsm.engageWithHuman, commands]
  · intro x z; simp [Fsm.stateAction]
  · intro x z; simp [Fsm.stateAction]
  · intro x z; simp [Fsm.stateAction]
  · intro x z; simp [Fsm.stateAction]

/-- C14: `changeModeSrvCb` is idempotent.  For every value of `enabled_`
and every request state, a second call with the same request leaves the
members (so the `enabled_` flag) as the first call left them and publishes
nothing, and both calls answer `result = OK` and return true. -/
theorem C14_changeMode_idempotent :
    ∀ (s : Follower.State) (request_state : Nat),
      (Follower.changeModeSrvCb (Follower.changeModeSrvCb s request_state).state
          request_state).state.enabled_
        = (Follower.changeModeSrvCb s request_state).state.enabled_ ∧
      (Follower.changeModeSrvCb (Follower.changeModeSrvCb s request_state).state
          request_state).state
        = (Follower.changeModeSrvCb s request_state).state ∧
      (Follower.changeModeSrvCb (Follower.changeModeSrvCb s request_state).state
          request_state).events = [] ∧
      (Follower.changeModeSrvCb s request_state).result = OK ∧
      (Follower.changeModeSrvCb (Follower.changeModeSrvCb s request_state).state
          request_state).result = OK ∧
      (Follower.changeModeSrvCb s request_state).returned = true ∧
      (Follower.changeModeSrvCb (Follower.changeModeSrvCb s request_state).state
          request_state).returned = true := by
  intro s request_state
  by_cases h1 : request_state = STOPPED
  · cases he : s.enabled_ <;>
      simp [Follower.changeModeSrvCb, h1, he, STOPPED, FOLLOW]
  · by_cases h2 : request_state = FOLLOW
    · cases he : s.enabled_ <;>
        simp [Follower.changeModeSrvCb, h2, he, STOPPED, FOLLOW]
    · cases he : s.enabled_ <;>
        simp [Follower.changeModeSrvCb, h1, h2, he]

/-- C15: for every state with `enabled_` true, a STOPPED request publishes
exactly one command, with linearX = 0 and angularZ = 0, and sets `enabled_`
to false; a FOLLOW request publishes no command and leaves `enabled_` true
whatever it was before. -/
theorem C15_changeMode_effects (s : Follower.State) (he : s.enabled_ = true) :
    (Follower.changeModeSrvCb s STOPPED).events = [Event.cmd ⟨0, 0⟩] ∧
    commands (Follower.changeModeSrvCb s STOPPED).events = [⟨0, 0⟩] ∧
    (Follower.changeModeSrvCb s STOPPED).state.enabled_ = false ∧
    (∀ s2 : Follower.State,
      (Follower.changeModeSrvCb s2 FOLLOW).events = [] ∧
      commands (Follower.changeModeSrvCb s2 FOLLOW).events = [] ∧
      (Follower.changeModeSrvCb s2 FOLLOW).state.enabled_ = true) := by
  refine ⟨?_, ?_, ?_, ?_⟩
  · simp [Follower.changeModeSrvCb, he, Twist.zero]
  · simp [Follower.changeModeSrvCb, he, Twist.zero, commands]
  · simp [Follower.changeModeSrvCb, he]
  · intro s2
    cases h2 : s2.enabled_ <;>
      simp [Follower.changeModeSrvCb, h2, STOPPED, FOLLOW, commands]

/-- Witness for C15: the enabled blended nodelet receives STOPPED. -/
theorem C15_changeMode_effects_witness :
    followerOn.enabled_ = true ∧
    commands (Follower.changeModeSrvCb followerOn STOPPED).events = [⟨0, 0⟩] ∧
    (Follower.changeModeSrvCb followerOn STOPPED).state.enabled_ = false :=
  ⟨rfl, (C15_changeMode_effects followerOn rfl).2.1, (C15_changeMode_effects followerOn rfl).2.2.1⟩

/-- C16 (evaluation at the failing input): the row table divides the
vertical field of view by the image width, not the height.  For every frame
the angle of row v is (height/2 - v) * (45/57) / width, so the table spans
(45/57) * height / width; on a 640 x 480 frame the span is 45/76 rad, not
45/57 rad, and the angle of row 0 is 45/152, not 45/114.  The angle is
strictly decreasing in v, and it agrees with the specification when
width = height. -/
theorem C16_row_table_divides_by_width :
    (∀ (sinf : ℚ → ℚ) (w h v : Nat), sin_pixel_y sinf w h v = sinf (row_angle w h v)) ∧
    (∀ w h v : Nat, row_angle w h v = ((h : ℚ) / 2 - (v : ℚ)) * (45 / 57) / (w : ℚ)) ∧
    (∀ w h : Nat, 0 < w → row_angle w h 0 - row_angle w h h = (45 / 57) * (h : ℚ) / (w : ℚ)) ∧
    (∀ w h v : Nat, 0 < w → row_angle w h (v + 1) < row_angle w h v) ∧
    (∀ n v : Nat, row_angle n n v = specRowAngle n v) ∧
    row_angle 640 480 0 - row_angle 640 480 480 = 45 / 76 ∧
    specRowAngle 480 0 - specRowAngle 480 480 = 45 / 57 ∧
    row_angle 640 480 0 = 45 / 152 ∧
    specRowAngle 480 0 = 45 / 114 ∧
    row_angle 640 480 0 ≠ specRowAngle 480 0 := by
  refine ⟨?_, ?_, ?_, ?_, ?_, ?_, ?_, ?_, ?_, ?_⟩
  · intro sinf w h v; rfl
  · intro w h v
    unfold row_angle
    ring
  · intro w h hw
    have hw2 : (w : ℚ) ≠ 0 := by exact_mod_cast Nat.pos_iff_ne_zero.mp hw
    unfold row_angle
    field_simp
    ring
  · intro w h v hw
    have hw2 : (0 : ℚ) < (w : ℚ) := by exact_mod_cast hw
    have hpos : (0 : ℚ) < 45 / 57 / (w : ℚ) := by positivity
    unfold row_angle
    push_cast
    nlinarith
  · intro n v
    unfold row_angle specRowAngle
    ring
  · norm_num [row_angle]
  · norm_num [specRowAngle]
  · norm_num [row_angle]
  · norm_num [specRowAngle]
  · norm_num [row_angle, specRowAngle]

/-- C17 (as stated, refuted): the state machine left in AVOID by a face
event (no face, obstacle flag set) receives a depth frame with a single
accepted point.  `updateObstacle` clears the obstacle flag and returns with
STATE still 1 (AVOID), while the table gives SEARCH (0) for the current flags
(F, F, F). -/
theorem C17_depth_event_leaves_state_stale :
    (Fsm.personDetectionCallBack { fsmIdle with obstacle_detected := 1 } []).1.STATE = 1 ∧
    (Fsm.updateObstacle sinCubic
      (Fsm.personDetectionCallBack { fsmIdle with obstacle_detected := 1 } []).1
      frameOne).1.face_found = false ∧
    (Fsm.updateObstacle sinCubic
      (Fsm.personDetectionCallBack { fsmIdle with obstacle_detected := 1 } []).1
      frameOne).1.obstacle_detected = 0 ∧
    (Fsm.updateObstacle sinCubic
      (Fsm.personDetectionCallBack { fsmIdle with obstacle_detected := 1 } []).1
      frameOne).1.is_close_to_human = 0 ∧
    (Fsm.updateObstacle sinCubic
      (Fsm.personDetectionCallBack { fsmIdle with obstacle_detected := 1 } []).1
      frameOne).1.STATE = 1 ∧
    Fsm.tableState false false false = 0 ∧
    (Fsm.updateObstacle sinCubic
      (Fsm.personDetectionCallBack { fsmIdle with obstacle_detected := 1 } []).1
      frameOne).1.STATE ≠ Fsm.tableState false false false := by
  have hpre : (Fsm.personDetectionCallBack { fsmIdle with obstacle_detected := 1 } []).1
      = { fsmIdle with obstacle_detected := 1, STATE := 1 } := by
    simp [Fsm.personDetectionCallBack, Fsm.updateState, fsmIdle]
  have hn : (scan sinCubic Config.default frameOne).n = 1 := by
    norm_num [scan, scanRow, List.range_succ, pixelStep, DepthFrame.sample, frameOne,
      Config.default, Scan.init, sin_pixel_x, sin_pixel_y, sinCubic]
  have hpost : (Fsm.updateObstacle sinCubic
      { fsmIdle with obstacle_detected := 1, STATE := 1 } frameOne).1
      = { fsmIdle with obstacle_detected := 0, STATE := 1 } := by
    have hcfg : fsmIdle.cfg = Config.default := rfl
    have hle : ¬ (scan sinCubic Config.default frameOne).n > 4000 := by rw [hn]; decide
    simp only [Fsm.updateObstacle, Fsm.updateObstacle_threshold, hcfg, if_neg hle]
  rw [hpre, hpost]
  refine ⟨rfl, rfl, rfl, rfl, rfl, rfl, ?_⟩
  simp [Fsm.tableState]

/-- C17 (amended): the state is recomputed on every new face event, not on
depth events.  After `personDetectionCallBack` returns, STATE equals the
table's state for the current values of (faceFound, obstacleDetected,
closeToHuman), for either value of the obstacle flag; `updateObstacle` only
rewrites the obstacle flag: it publishes nothing and returns with STATE,
`face_found` and `is_close_to_human` as they were. -/
theorem C17_state_recomputed_on_face_events :
    (∀ (s : Fsm.State) (faces : List Face) (o : Bool),
      (Fsm.personDetectionCallBack { s with obstacle_detected := Fsm.ofBool o } faces).1.STATE
        = Fsm.tableState
            (Fsm.personDetectionCallBack { s with obstacle_detected := Fsm.ofBool o }
              faces).1.face_found
            o
            (decide ((Fsm.personDetectionCallBack { s with obstacle_detected := Fsm.ofBool o }
              faces).1.is_close_to_human = 1)) ∧
      (Fsm.personDetectionCallBack { s with obstacle_detected := Fsm.ofBool o }
        faces).1.obstacle_detected = Fsm.ofBool o) ∧
    (∀ (sinf : ℚ → ℚ) (s : Fsm.State) (f : DepthFrame),
      (Fsm.updateObstacle sinf s f).1.STATE = s.STATE ∧
      (Fsm.updateObstacle sinf s f).1.face_found = s.face_found ∧
      (Fsm.updateObstacle sinf s f).1.is_close_to_human = s.is_close_to_human ∧
      (Fsm.updateObstacle sinf s f).2 = []) := by
  constructor
  · intro s faces o
    cases faces with
    | nil =>
      cases o <;>
        simp [Fsm.personDetectionCallBack, Fsm.updateState, Fsm.ofBool, Fsm.tableState]
    | cons face0 rest =>
      by_cases hw : 100 < face0.width <;> cases o <;>
        simp [Fsm.personDetectionCallBack, Fsm.updateState, Fsm.ofBool, Fsm.tableState, hw]
  · intro sinf s f
    unfold Fsm.updateObstacle Fsm.updateObstacle_threshold
    split_ifs <;> exact ⟨rfl, rfl, rfl, rfl⟩

/-- C18: after every `personDetectionCallBack` of the state-machine nodelet,
`is_close_to_human` is true exactly when the face list is non-empty and its
first face is strictly wider than 100 (width = 100 is not close), so
`is_close_to_human` implies `face_found`; the state the callback leaves is
ENGAGE exactly when the first face is wider than 100 px, whatever value
`obstacle_detected` holds; and when `updateState` is called from the callback
the flags are never (faceFound = F, closeToHuman = T) and, the obstacle flag
holding a bool, the final `else` arm is never the one that runs. -/
theorem C18_close_to_human_after_callback :
    (∀ (s : Fsm.State) (faces : List Face),
      ((Fsm.personDetectionCallBack s faces).1.is_close_to_human = 1 ↔
        ∃ face0 rest, faces = face0 :: rest ∧ 100 < face0.width) ∧
      ((Fsm.personDetectionCallBack s faces).1.is_close_to_human = 1 ∨
        (Fsm.personDetectionCallBack s faces).1.is_close_to_human = 0) ∧
      ((Fsm.personDetectionCallBack s faces).1.face_found = true ↔ faces ≠ []) ∧
      ((Fsm.personDetectionCallBack s faces).1.is_close_to_human = 1 →
        (Fsm.personDetectionCallBack s faces).1.face_found = true) ∧
      ((Fsm.personDetectionCallBack s faces).1.STATE = 3 ↔
        ∃ face0 rest, faces = face0 :: rest ∧ 100 < face0.width) ∧
      Fsm.personDetectionCallBack s faces
        = Fsm.updateState (Fsm.personDetectionCallBack_flags s faces) ∧
      ¬ ((Fsm.personDetectionCallBack_flags s faces).face_found = false ∧
          (Fsm.personDetectionCallBack_flags s faces).is_close_to_human = 1)) ∧
    (∀ (s : Fsm.State) (face0 : Face) (rest : List Face), face0.width = 100 →
      (Fsm.personDetectionCallBack s (face0 :: rest)).1.is_close_to_human = 0 ∧
      (Fsm.personDetectionCallBack s (face0 :: rest)).1.STATE ≠ 3) ∧
    (∀ (s : Fsm.State) (faces : List Face) (o : Bool),
      Fsm.updateState_branch
        (Fsm.personDetectionCallBack_flags { s with obstacle_detected := Fsm.ofBool o } faces)
        ≠ 5) := by
  refine ⟨?_, ?_, ?_⟩
  · intro s faces
    have hfst : (Fsm.personDetectionCallBack s faces).1
        = { Fsm.personDetectionCallBack_flags s faces with
            STATE := (Fsm.personDetectionCallBack s faces).1.STATE } := by
      have h := Fsm.updateState_fst (Fsm.personDetectionCallBack_flags s faces)
      rw [← Fsm.personDetectionCallBack_eq] at h
      exact h
    have hstate : (Fsm.personDetectionCallBack s faces).1.STATE = 3 ↔
        (Fsm.personDetectionCallBack_flags s faces).face_found = true ∧
        (Fsm.personDetectionCallBack_flags s faces).is_close_to_human = 1 := by
      rw [Fsm.personDetectionCallBack_eq]
      exact Fsm.updateState_engage_iff _
    have hface : (Fsm.personDetectionCallBack s faces).1.face_found
        = (Fsm.personDetectionCallBack_flags s faces).face_found := by
      rw [hfst]
    have hclose : (Fsm.personDetectionCallBack s faces).1.is_close_to_human
        = (Fsm.personDetectionCallBack_flags s faces).is_close_to_human := by
      rw [hfst]
    rw [hstate, hface, hclose]
    cases faces with
    | nil =>
      have h1 : (Fsm.personDetectionCallBack_flags s []).face_found = false := rfl
      have h2 : (Fsm.personDetectionCallBack_flags s []).is_close_to_human = 0 := rfl
      rw [h1, h2]
      refine ⟨?_, Or.inr rfl, ?_, ?_, ?_, Fsm.personDetectionCallBack_eq s [], ?_⟩
      · simp
      · simp
      · intro h; exact absurd h (by norm_num)
      · simp
      · simp
    | cons face0 rest =>
      have h1 : (Fsm.personDetectionCallBack_flags s (face0 :: rest)).face_found = true := rfl
      have h2 : (Fsm.personDetectionCallBack_flags s (face0 :: rest)).is_close_to_human
          = if face0.width > 100 then 1 else 0 := rfl
      rw [h1, h2]
      by_cases hw : 100 < face0.width
      · refine ⟨?_, ?_, ?_, ?_, ?_, Fsm.personDetectionCallBack_eq s _, ?_⟩
        · simp [hw]
        · left; simp [hw]
        · simp
        · intro _; rfl
        · simp [hw]
        · simp
      · refine ⟨?_, ?_, ?_, ?_, ?_, Fsm.personDetectionCallBack_eq s _, ?_⟩
        · simp [hw]
        · right; simp [hw]
        · simp
        · intro _; rfl
        · simp [hw]
        · simp
  · intro s face0 rest hw
    have hw2 : ¬ 100 < face0.width := by rw [hw]; norm_num
    have hflag : (Fsm.personDetectionCallBack_flags s (face0 :: rest)).is_close_to_human = 0 := by
      show (if face0.width > 100 then (1 : ℚ) else 0) = 0
      rw [if_neg hw2]
    constructor
    · rw [Fsm.personDetectionCallBack_eq, Fsm.updateState_fst]
      exact hflag
    · rw [Fsm.personDetectionCallBack_eq]
      intro h3
      have h := ((Fsm.updateState_engage_iff _).mp h3).2
      rw [hflag] at h
      exact absurd h (by norm_num)
  · intro s faces o
    cases faces with
    | nil =>
      cases o <;>
        simp [Fsm.updateState_branch, Fsm.personDetectionCallBack_flags, Fsm.ofBool]
    | cons face0 rest =>
      by_cases hw : 100 < face0.width <;> cases o <;>
        simp [Fsm.updateState_branch, Fsm.personDetectionCallBack_flags, Fsm.ofBool, hw]

end ChezBot
